import Mathlib

/-!
Verification of the publication/project page tooling
(`tools/update_publications.py`, `tools/repair_publications.py`,
`tools/update_projects.py`).

Python strings are modelled as `List Char` (`Str`).  Python's `casefold` /
`lower` are modelled as ASCII lowercasing (they coincide on ASCII, which is
all the comparison keys in this repository rely on).  Python `html.unescape`
is modelled on the standard XML entities actually produced by
`html.escape` (`&amp; &lt; &gt; &quot; &#x27;` plus `&#39;`); the full
HTML5 entity table is irrelevant to the properties proved here.
Network / filesystem reads are passed in as explicit parameters.
-/

namespace Site

/-- Python `str` modelled as a list of characters. -/
abbrev Str := List Char

/-- Turn a Lean string literal into a modelled Python string. -/
def pstr (s : String) : Str := s.data

/-- Python truthiness of a string (`bool(s)`): nonempty. -/
def strT (s : Str) : Bool := !s.isEmpty

/-- Python truthiness of an optional string (`None` and `""` are falsy). -/
def optT : Option Str → Bool
  | none => false
  | some s => strT s

/-- Python `x or y` for strings: first truthy value, else the last. -/
def pyOr (x y : Str) : Str := if strT x then x else y

/-- Decidable equality for `Except` results (used to evaluate the
modelled fallible functions on concrete inputs). -/
instance {ε α : Type} [DecidableEq ε] [DecidableEq α] :
    DecidableEq (Except ε α) := fun a b =>
  match a, b with
  | .error e1, .error e2 =>
    if h : e1 = e2 then isTrue (by rw [h])
    else isFalse (by intro hc; cases hc; exact h rfl)
  | .ok a1, .ok a2 =>
    if h : a1 = a2 then isTrue (by rw [h])
    else isFalse (by intro hc; cases hc; exact h rfl)
  | .error _, .ok _ => isFalse (by intro hc; cases hc)
  | .ok _, .error _ => isFalse (by intro hc; cases hc)

/-- Python `\s` / `str.strip()` whitespace (ASCII portion). -/
def isPySpace (c : Char) : Bool :=
  c = ' ' || c = '\t' || c = '\n' || c = '\r' || c = '\x0b' || c = '\x0c'

/-- Python `s.strip()`. -/
def stripWs (s : Str) : Str :=
  ((s.dropWhile isPySpace).reverse.dropWhile isPySpace).reverse

/-- Python `s.strip(chars)`. -/
def stripChars (chars : Str) (s : Str) : Str :=
  ((s.dropWhile (chars.contains ·)).reverse.dropWhile (chars.contains ·)).reverse

/-- Python `s.lstrip(chars)`. -/
def lstripChars (chars : Str) (s : Str) : Str := s.dropWhile (chars.contains ·)

/-- ASCII lowercasing; models Python `str.lower()`/`str.casefold()`
(they agree on ASCII text). -/
def pyLowerChar (c : Char) : Char :=
  if 'A' ≤ c && c ≤ 'Z' then Char.ofNat (c.toNat + 32) else c

/-- Python `s.casefold()` (ASCII model). -/
def pyCasefold (s : Str) : Str := s.map pyLowerChar

/-- ASCII decimal digit. -/
def isDigitChar (c : Char) : Bool := '0' ≤ c && c ≤ '9'

/-- Python `s.isdigit()` (ASCII model): nonempty and all digits. -/
def pyIsDigit (s : Str) : Bool := !s.isEmpty && s.all isDigitChar

/-- Numeric value of an all-digit string (used to model `int(y)` on
strings already checked with `isdigit`). -/
def digitsToNat (s : Str) : Nat :=
  s.foldl (fun acc c => acc * 10 + (c.toNat - '0'.toNat)) 0

/-- Python `int(s)` for general strings: strip whitespace, optional sign,
then a nonempty digit run; anything else raises `ValueError` (`none`).
(Underscore separators and non-ASCII digits accepted by CPython are not
modelled; no input in this development uses them.) -/
def pyInt? (s : Str) : Option Int :=
  let t := stripWs s
  match t with
  | '+' :: rest => if pyIsDigit rest then some (digitsToNat rest : Int) else none
  | '-' :: rest => if pyIsDigit rest then some (-(digitsToNat rest : Int)) else none
  | rest => if pyIsDigit rest then some (digitsToNat rest : Int) else none

/-- Python `html.escape(s, quote=True)`: escape `& < > " '`.
(The sequential `str.replace` calls in CPython are equivalent to this
character map, since no replacement output contains a character that a
later replace rewrites in a way that differs.) -/
def escChar (c : Char) : Str :=
  if c = '&' then pstr "&amp;"
  else if c = '<' then pstr "&lt;"
  else if c = '>' then pstr "&gt;"
  else if c = '"' then pstr "&quot;"
  else if c = '\'' then pstr "&#x27;"
  else [c]

/-- Python `html.escape(s, quote=True)`. -/
def html_escape (s : Str) : Str := (s.map escChar).flatten

/-- Python `html.unescape`, restricted to the entities produced by
`html.escape` (plus `&#39;`); other text passes through unchanged.
`fuel` bounds the scan steps: each step consumes at least one character,
so the string length always suffices. -/
def unescapeGo : Nat → Str → Str
  | 0, s => s
  | _ + 1, [] => []
  | fuel + 1, '&' :: rest =>
    if (pstr "amp;").isPrefixOf rest then '&' :: unescapeGo fuel (rest.drop 4)
    else if (pstr "lt;").isPrefixOf rest then '<' :: unescapeGo fuel (rest.drop 3)
    else if (pstr "gt;").isPrefixOf rest then '>' :: unescapeGo fuel (rest.drop 3)
    else if (pstr "quot;").isPrefixOf rest then '"' :: unescapeGo fuel (rest.drop 5)
    else if (pstr "#x27;").isPrefixOf rest then '\'' :: unescapeGo fuel (rest.drop 5)
    else if (pstr "#39;").isPrefixOf rest then '\'' :: unescapeGo fuel (rest.drop 4)
    else '&' :: unescapeGo fuel rest
  | fuel + 1, c :: rest => c :: unescapeGo fuel rest

/-- Python `html.unescape` (restricted as described at `unescapeGo`). -/
def html_unescape (s : Str) : Str := unescapeGo s.length s

/-- The scan of Python `s.replace(pat, repl)`; `fuel` bounds the steps
(each consumes at least one character of `s`). -/
def replaceAllGo (pat repl : Str) : Nat → Str → Str
  | 0, s => s
  | _ + 1, [] => []
  | fuel + 1, c :: rest =>
    if pat.isPrefixOf (c :: rest) then
      match pat with
      | [] => c :: replaceAllGo pat repl fuel rest
      | _ :: ps => repl ++ replaceAllGo pat repl fuel (rest.drop ps.length)
    else
      c :: replaceAllGo pat repl fuel rest

/-- Python `s.replace(pat, repl)` (all non-overlapping occurrences,
left to right).  `pat` is nonempty at every call site; for totality an
empty pattern returns `s` unchanged. -/
def replaceAll (s pat repl : Str) : Str :=
  match pat with
  | [] => s
  | p :: ps => replaceAllGo (p :: ps) repl s.length s

/-- First occurrence of nonempty `sep` in `s`: `(before, after)`. -/
def findSepOnce (sep : Str) : Str → Option (Str × Str)
  | [] => none
  | c :: rest =>
    if sep.isPrefixOf (c :: rest) then some ([], (c :: rest).drop sep.length)
    else (findSepOnce sep rest).map (fun p => (c :: p.1, p.2))

/-- The iteration of Python `s.split(sep)`; `fuel` bounds the number of
fields (the string length plus one always suffices for a nonempty
separator). -/
def splitGo (sep : Str) : Nat → Str → List Str
  | 0, s => [s]
  | fuel + 1, s =>
    match findSepOnce sep s with
    | none => [s]
    | some (a, b) => a :: splitGo sep fuel b

/-- Python `s.split(sep)` for a nonempty separator: non-overlapping,
left to right; adjacent separators yield empty fields.  (An empty
separator raises in Python; modelled as the one-field split.) -/
def splitOnSep (sep : Str) (s : Str) : List Str :=
  if sep = [] then [s] else splitGo sep (s.length + 1) s

/-- Stable insertion: place `x` before the first element `y` with
`le x y`. -/
def pyInsert {α : Type} (le : α → α → Bool) (x : α) : List α → List α
  | [] => [x]
  | y :: t => if le x y then x :: y :: t else y :: pyInsert le x t

/-- Stable insertion sort.  For a total preorder `le` every stable sort
computes the same list, so this models Python's stable `sorted`
(including `reverse=True`, which is passed in through `le`). -/
def pySorted {α : Type} (le : α → α → Bool) (l : List α) : List α :=
  l.foldr (pyInsert le) []

/-- Python `s.split()` (no argument): split on whitespace runs,
discarding empty fields. -/
def splitWs (s : Str) : List Str :=
  ((s.map (fun c => if isPySpace c then ' ' else c)).splitOn ' ').filter
    (fun w => !w.isEmpty)

/-- Helper for `subRuns`: processes the string right to left; the flag
records whether the character to the right belonged to a run (whose
replacement has already been emitted). -/
def subRunsAux (p : Char → Bool) (r : Char) : Str → Str × Bool
  | [] => ([], false)
  | c :: rest =>
    let st := subRunsAux p r rest
    if p c then (if st.2 then st.1 else r :: st.1, true)
    else (c :: st.1, false)

/-- `re.sub(r"[class]+", r, s)` for a single-character replacement:
replace every maximal run of characters satisfying `p` by one `r`. -/
def subRuns (p : Char → Bool) (r : Char) (s : Str) : Str :=
  (subRunsAux p r s).1

/-- Python `pat in s` (substring containment). -/
def containsSub (s pat : Str) : Bool :=
  if pat = [] then true else (findSepOnce pat s).isSome

/-- Python `str(n)` for an `int`. -/
def intToStr (n : Int) : Str :=
  if n < 0 then '-' :: Nat.toDigits 10 (-n).toNat
  else Nat.toDigits 10 n.toNat

/-- Remove every character belonging to `cls` (models
`re.sub(r"[cls]", "", s)`). -/
def removeChars (cls : Str) (s : Str) : Str :=
  s.filter (fun c => !cls.contains c)

section UpdatePublications
/-!  ## update_publications.py  -/

/-- `Pub` from update_publications.py. -/
structure Pub where
  title : Str
  authors : Str
  venue : Str
  year : Str
  scholar_url : Str
deriving DecidableEq, Repr

/-- `EnrichedPub` from update_publications.py. -/
structure EnrichedPub where
  pub : Pub
  link_url : Option Str
  doi : Option Str
  doi_url : Option Str
  pdf_url : Option Str
  bib_filename : Option Str
deriving DecidableEq, Repr

/-- `_norm_title` from update_publications.py: casefold, map non-
alphanumeric runs to a space, collapse whitespace, strip. -/
def _norm_title (t : Str) : Str :=
  let t := pyCasefold t
  let t := subRuns (fun c => !(('a' ≤ c && c ≤ 'z') || ('0' ≤ c && c ≤ '9'))) ' ' t
  stripWs (subRuns isPySpace ' ' t)

/-- The deduplication key of `fetch_scholar_publications`:
`(p.title.casefold(), p.year)`. -/
def dedupKey (p : Pub) : Str × Str := (pyCasefold p.title, p.year)

/-- The deduplication loop of `fetch_scholar_publications`
(lines 120-130): first occurrence of each key wins, later ones are
dropped; `seen` is the set of keys already emitted. -/
def dedupGo (seen : List (Str × Str)) : List Pub → List Pub
  | [] => []
  | p :: rest =>
    if dedupKey p ∈ seen then dedupGo seen rest
    else p :: dedupGo (dedupKey p :: seen) rest

/-- Deduplication of the fetched publication list by `(title.casefold(), year)`. -/
def dedupPubs (l : List Pub) : List Pub := dedupGo [] l

/-- Characters `_sanitize_doi` keeps: `[a-z0-9._-]`. -/
def isSanAllowed (c : Char) : Bool :=
  ('a' ≤ c && c ≤ 'z') || ('0' ≤ c && c ≤ '9') || c = '.' || c = '_' || c = '-'

/-- `_sanitize_doi` from update_publications.py. -/
def _sanitize_doi (doi : Str) : Str :=
  let s := (stripWs doi).map pyLowerChar
  let s := replaceAll s (pstr "https://doi.org/") []
  let s := replaceAll s (pstr "http://doi.org/") []
  let s := replaceAll s (pstr "/") (pstr "_")
  subRuns (fun c => !isSanAllowed c) '_' s

/-- `_slug` from update_publications.py. -/
def _slug (s : Str) : Str :=
  let s := _norm_title s
  let s := replaceAll s (pstr " ") (pstr "-")
  let s := stripChars (pstr "-") (s.take 80)
  if strT s then s else pstr "pub"

/-- `_make_id_fallback` from update_publications.py.  The SHA-1 hex
digest of `f"{title}|{year}|{venue}"` (Python stdlib hashing) is
supplied as the parameter `h`; the properties proved below hold for
every value of the digest. -/
def _make_id_fallback (h : Str) (p : Pub) : Str :=
  _slug p.title ++ pstr "-" ++ pyOr p.year (pstr "noyear") ++ pstr "-" ++ h

/-- The BibTeX filename each enriched publication ends the enrichment
loop with (update_publications.py `main`, lines 415-437), as a function
of the Crossref DOI and the fetched BibTeX content (both external
inputs) and of the fallback-id digest `h`. -/
def bibFilenameFor (h : Str) (p : Pub) (doi : Option Str)
    (fetched : Option Str) : Str :=
  if optT doi then
    if optT fetched then _sanitize_doi (doi.getD []) ++ pstr ".bib"
    else _make_id_fallback h p ++ pstr ".bib"
  else _make_id_fallback h p ++ pstr ".bib"

/-- A Crossref work item as consumed by the best-match scorers:
first title, `issued.date-parts`, and the author payload. -/
structure CRItem where
  title : List Str
  issued : List (List (Option Int))
  authors : List (Str × Str)
deriving DecidableEq, Repr

/-- `(it.get("title") or [""])[0]`. -/
def itFirstTitle (it : CRItem) : Str :=
  match it.title with
  | [] => []
  | t :: _ => t

/-- The year string `y` computed by the scorers from
`issued["date-parts"]` (empty unless `issued and issued[0] and
issued[0][0]` is truthy). -/
def itYearStr (it : CRItem) : Str :=
  match it.issued with
  | [] => []
  | first :: _ =>
    match first with
    | [] => []
    | y0 :: _ =>
      match y0 with
      | none => []
      | some n => if n = 0 then [] else intToStr n

/-- The `score` closure shared by `_crossref_best_match`
(repair_publications.py) and `crossref_best_match`
(update_publications.py), parameterised by the title normalizer the two
files respectively use.  Scores are exact rationals; the Python floats
`0.08` and `0.35` are modelled as `8/100` and `35/100` (every
comparison in the theorems below is far from the float rounding error). -/
def scoreItem (norm : Str → Str) (title : Str) (year : Option Str)
    (it : CRItem) : ℚ :=
  let want := norm title
  let cand := norm (itFirstTitle it)
  if !strT cand then 0
  else
    let wantSet := (splitWs want).toFinset
    let candSet := (splitWs cand).toFinset
    let jacc : ℚ := ((wantSet ∩ candSet).card : ℚ) /
      (max 1 ((wantSet ∪ candSet).card) : ℚ)
    let yearBonus : ℚ :=
      if optT year && decide (itYearStr it = year.getD []) then 8/100 else 0
    jacc + yearBonus

/-- Python `max(items, key=f)`: first element of maximal key. -/
def pyMaxBy (f : CRItem → ℚ) : CRItem → List CRItem → CRItem
  | best, [] => best
  | best, x :: rest => pyMaxBy f (if f x > f best then x else best) rest

/-- The candidate-selection core shared by both `crossref_best_match`
functions: the network layer is external, so the decoded item list is a
parameter (a failed request or an empty response yields `none` exactly
as in the code). -/
def crossrefBestCore (norm : Str → Str) (title : Str) (year : Option Str)
    (items : List CRItem) : Option CRItem :=
  match items with
  | [] => none
  | first :: rest =>
    let best := pyMaxBy (scoreItem norm title year) first rest
    if scoreItem norm title year best < 35/100 then none else some best

end UpdatePublications

section RepairNormalizers
/-!  ## repair_publications.py — text normalizers  -/

/-- `_norm` from repair_publications.py: HTML-entity decode, casefold,
strip curly/straight quotes, map non-alphanumeric runs to a space,
collapse whitespace, strip. -/
def _norm (s : Str) : Str :=
  let s := html_unescape s
  let s := pyCasefold s
  let s := removeChars (pstr "“”\"'") s
  let s := subRuns (fun c => !(('a' ≤ c && c ≤ 'z') || ('0' ≤ c && c ≤ '9'))) ' ' s
  stripWs (subRuns isPySpace ' ' s)

/-- `_norm_text_for_filter` from repair_publications.py. -/
def _norm_text_for_filter (s : Str) : Str :=
  let s := html_unescape s
  let s := pyCasefold s
  let s := replaceAll s (pstr "“") (pstr "\"")
  let s := replaceAll s (pstr "”") (pstr "\"")
  let s := replaceAll s (pstr "’") (pstr "'")
  let s := replaceAll s (pstr "–") (pstr "-")
  stripWs (subRuns isPySpace ' ' s)

/-- `_norm_doi_for_match` from repair_publications.py. -/
def _norm_doi_for_match (doi : Option Str) : Str :=
  match doi with
  | none => []
  | some d =>
    if !strT d then []
    else
      let d := (stripWs (html_unescape d)).map pyLowerChar
      let d := replaceAll d (pstr "https://doi.org/") []
      let d := replaceAll d (pstr "http://doi.org/") []
      if (pstr "0.").isPrefixOf d then pstr "10." ++ d.drop 2 else d

/-- `_crossref_best_match` from repair_publications.py (scoring over the
decoded response items; the `year` argument is `card.year if card.year
else None`). -/
def _crossref_best_match (title : Str) (year : Option Str)
    (items : List CRItem) : Option CRItem :=
  crossrefBestCore _norm title year items

/-- `crossref_best_match` from update_publications.py (its `year`
parameter is a plain string; `year and y == year` is `strT year && ...`,
i.e. the truthiness of `some year`). -/
def crossref_best_match (title : Str) (year : Str)
    (items : List CRItem) : Option CRItem :=
  crossrefBestCore _norm_title title (some year) items

end RepairNormalizers

namespace Projects
/-!  ## update_projects.py  -/

/-- `CompetitiveProject` from update_projects.py (`end` is a Lean
keyword, rendered `endDate` here). -/
structure CompetitiveProject where
  title : Str
  start : Str
  endDate : Str
  funder : Str
  pis : List Str
deriving DecidableEq, Repr

/-- `_norm_title` from update_projects.py. -/
def _norm_title (s : Str) : Str :=
  let s := html_unescape s
  let s := (stripWs s).map pyLowerChar
  let s := subRuns isPySpace ' ' s
  stripChars (pstr " .,:;\t\n\r") s

/-- `FORCE_PAST_COMPETITIVE_TITLES`. -/
def FORCE_PAST_COMPETITIVE_TITLES : List Str :=
  [pstr "ciberseguridad y seguridad en arquitecturas cognitivas para robots"]

/-- A `datetime.date` value (always a valid calendar date, constructed
only through `dateMk?`). -/
structure PyDate where
  y : Int
  m : Int
  d : Int
deriving DecidableEq, Repr

/-- Gregorian leap year, as used by `datetime.date`. -/
def isLeap (y : Int) : Bool :=
  y % 4 = 0 && (y % 100 ≠ 0 || y % 400 = 0)

/-- Days in a month, as validated by the `datetime.date` constructor. -/
def daysInMonth (y m : Int) : Int :=
  if m = 2 then (if isLeap y then 29 else 28)
  else if m = 4 || m = 6 || m = 9 || m = 11 then 30
  else 31

/-- `datetime.date(y, m, d)`: `some` on a valid date, `none` when the
constructor would raise (caught by the `try/except` in `_parse_date`). -/
def dateMk? (y m d : Int) : Option PyDate :=
  if 1 ≤ y && y ≤ 9999 && 1 ≤ m && m ≤ 12 && 1 ≤ d && d ≤ daysInMonth y m
  then some ⟨y, m, d⟩ else none

/-- `date` comparison (`<`), lexicographic on (year, month, day). -/
def dateLt (a b : PyDate) : Bool :=
  a.y < b.y || (a.y = b.y && (a.m < b.m || (a.m = b.m && a.d < b.d)))

/-- `_parse_date` from update_projects.py.  `int(y)` is evaluated
*outside* the `try` block, so a three-field date whose year is not an
integer literal raises `ValueError` (modelled as `Except.error ()`);
`int(m)`, `int(d)` and the `dt.date` constructor are inside the `try`
and fall back to `None`. -/
def _parse_date (s : Str) : Except Unit (Option PyDate) :=
  let s := stripWs s
  if !strT s then .ok none
  else
    let parts := splitOnSep (pstr "/") s
    if parts.length ≠ 3 then .ok none
    else
      match parts with
      | [d, m, y] =>
        match pyInt? y with
        | none => .error ()
        | some yi =>
          let yi := if yi < 100 then yi + 2000 else yi
          match pyInt? m, pyInt? d with
          | some mi, some di => .ok (dateMk? yi mi di)
          | _, _ => .ok none
      | _ => .ok none

/-- `split_ongoing_past` from update_projects.py: the force-past set is
checked first; otherwise a missing/invalid (`None`) or non-past end date
means ongoing.  An uncaught `ValueError` from `_parse_date` aborts the
whole call. -/
def split_ongoing_past (today : PyDate) :
    List CompetitiveProject →
      Except Unit (List CompetitiveProject × List CompetitiveProject)
  | [] => .ok ([], [])
  | p :: rest =>
    if _norm_title p.title ∈ FORCE_PAST_COMPETITIVE_TITLES then
      (split_ongoing_past today rest).map (fun r => (r.1, p :: r.2))
    else
      match _parse_date p.endDate with
      | .error e => .error e
      | .ok none => (split_ongoing_past today rest).map (fun r => (p :: r.1, r.2))
      | .ok (some e) =>
        if !dateLt e today then
          (split_ongoing_past today rest).map (fun r => (p :: r.1, r.2))
        else
          (split_ongoing_past today rest).map (fun r => (r.1, p :: r.2))

/-- Whether a project's title is in the force-past set. -/
def projForced (p : CompetitiveProject) : Bool :=
  decide (_norm_title p.title ∈ FORCE_PAST_COMPETITIVE_TITLES)

/-- Whether processing a project raises (non-forced, and `_parse_date`
raises on its end date). -/
def projRaises (p : CompetitiveProject) : Bool :=
  !projForced p &&
    (match _parse_date p.endDate with
     | .error _ => true
     | .ok _ => false)

/-- The claim's "past" classification. -/
def projPast (today : PyDate) (p : CompetitiveProject) : Bool :=
  projForced p ||
    (match _parse_date p.endDate with
     | .ok (some e) => dateLt e today
     | _ => false)

/-- The claim's "ongoing" classification. -/
def projOngoing (today : PyDate) (p : CompetitiveProject) : Bool :=
  !projForced p &&
    (match _parse_date p.endDate with
     | .ok none => true
     | .ok (some e) => !dateLt e today
     | .error _ => false)

end Projects

section RepairPublications
/-!  ## repair_publications.py — data, reconciliation, rendering

The mojibake keys below spell out the source file's characters by
codepoint (several are invisible C1 controls, e.g. U+00AD, U+0081). -/

/-- `MANUAL_RANKS` (keyed by normalized title). -/
def MANUAL_RANKS : List (Str × Str) :=
  [(pstr "dynamic delegation of behavior trees to enhance cooperation in robot teams", pstr "Q2"),
   (pstr "towards a robotic intrusion prevention system combining security and safety in cognitive social robots", pstr "Q1"),
   (pstr "open source robot localization for nonplanar environments", pstr "Q2"),
   (pstr "a visual questioning answering approach to enhance robot localization in indoor environments", pstr "Q3"),
   (pstr "regulated pure pursuit for robot path tracking", pstr "Q2"),
   (pstr "an autonomous ground robot to support firefighters interventions in indoor emergencies", pstr "Q2")]

/-- `EXCLUDE_YEARS`. -/
def EXCLUDE_YEARS : List Str :=
  [pstr "", pstr "Unknown", pstr "1978", pstr "1991"]

/-- `EXCLUDE_DOIS`. -/
def EXCLUDE_DOIS : List Str :=
  [pstr "10.1201/9781420031393-49",
   pstr "10.4995/thesis/10251/38902",
   pstr "10.5565/rev/tradumatica.7",
   pstr "10.1109/crv.2009.18",
   pstr "10.1109/icip.2009.5413736",
   pstr "10.1007/3-540-45603-1_54",
   pstr "10.1093/med/9780198779117.001.0001",
   pstr "10.1109/conielecomp.2011.5749380",
   pstr "10.5772/7351",
   pstr "10.2307/j.ctv2s0jcdb.240",
   pstr "10.1109/sice.2008.4655047",
   pstr "10.25100/peu.680.cap8",
   pstr "10.1201/9781003289623",
   pstr "10.5821/dissertation-2117-363911",
   pstr "10.15332/dt.inv.2020.01681",
   pstr "10.1109/case56687.2023.10260363",
   pstr "10.1109/isoirs65690.2025.11168047"]

/-- `EXCLUDE_TEXT_SNIPPETS`. -/
def EXCLUDE_TEXT_SNIPPETS : List Str :=
  [pstr "una perspectiva de la inteligencia artificial en su 50 aniversario: campus",
   pstr "robotica. unileon. es, 2007",
   pstr "constraints 2, 3, 2013",
   pstr "planning. wiki-the ai planning & pddl wiki",
   pstr "leading with depth: the impact of emotions and relationships on leadership, 2023"]

/-- `DOI_RANK_OVERRIDES`. -/
def DOI_RANK_OVERRIDES : List (Str × Str) :=
  [(pstr "10.1017/s0263574708004414", pstr "Q2")]

/-- `_MOJIBAKE_REPL`, in the source's (insertion) order. -/
def _MOJIBAKE_REPL : List (Str × Str) :=
  [(pstr "Ã¡", pstr "á"),
   (pstr "Ã©", pstr "é"),
   (pstr "Ã­", pstr "í"),
   (pstr "Ã³", pstr "ó"),
   (pstr "Ãº", pstr "ú"),
   (pstr "Ã±", pstr "ñ"),
   (pstr "Ã\u0081", pstr "Á"),
   (pstr "Ã\u0089", pstr "É"),
   (pstr "Ã\u008D", pstr "Í"),
   (pstr "Ã\u0093", pstr "Ó"),
   (pstr "Ã\u009A", pstr "Ú"),
   (pstr "Ã\u0091", pstr "Ñ"),
   (pstr "â\u0080\u0093", pstr "–"),
   (pstr "â\u0080\u0094", pstr "—"),
   (pstr "â\u0080\u009C", pstr "“"),
   (pstr "â\u0080\u009D", pstr "”"),
   (pstr "â\u0080\u0099", pstr "’"),
   (pstr "MartÃn", pstr "Martín"),
   (pstr "MartÃ­n", pstr "Martín"),
   (pstr "Mart√≠n", pstr "Martín"),
   (pstr "MÃºzquiz", pstr "Múzquiz"),
   (pstr "Hernàndez", pstr "Hernández")]

/-- `_fix_mojibake`: apply the substitution table in order. -/
def _fix_mojibake (s : Str) : Str :=
  if !strT s then s
  else _MOJIBAKE_REPL.foldl (fun out kv => replaceAll out kv.1 kv.2) s

/-- `Card` from repair_publications.py (`where` is a Lean keyword,
rendered `where_`). -/
structure Card where
  year : Str
  where_ : Str
  cite : Str
  doi : Option Str
  doi_url : Option Str
  scholar_url : Option Str
  bibtex_url : Option Str
  link_url : Option Str
  paper_url : Option Str
  badge : Str
deriving DecidableEq, Repr

/-- `_should_exclude` from repair_publications.py. -/
def _should_exclude (card : Card) : Bool :=
  if EXCLUDE_YEARS.contains card.year then true
  else
    let doi := _norm_doi_for_match card.doi
    if strT doi && EXCLUDE_DOIS.contains doi then true
    else
      let text := _norm_text_for_filter
        (card.where_ ++ pstr " " ++ card.cite ++ pstr " " ++ card.doi.getD [])
      EXCLUDE_TEXT_SNIPPETS.any (fun snip => containsSub text snip)

/-- `_clean_url`: strip, delete every whitespace character inside the
URL, and undo up to four levels of over-escaped entities. -/
def _clean_url : Option Str → Option Str
  | none => none
  | some u =>
    if !strT u then none
    else
      let u := stripWs u
      let u := u.filter (fun c => !isPySpace c)
      some (unescapeLoop 4 u)
where
  unescapeLoop : Nat → Str → Str
    | 0, u => u
    | n + 1, u =>
      let nu := html_unescape u
      if nu = u then u else unescapeLoop n nu

/-- `_bibtex_path_from_href`: `none` unless the href (after stripping
leading slashes) starts with `bibtex/`.  The `os.path.join` with the
repository root is abstracted away; the relative href itself is the key
into the modelled filesystem. -/
def _bibtex_path_from_href : Option Str → Option Str
  | none => none
  | some href =>
    if !strT href then none
    else
      let href := lstripChars (pstr "/") href
      if (pstr "bibtex/").isPrefixOf href then some href else none

/-- ASCII `\w` (the titles and BibTeX keys handled are ASCII). -/
def isWordChar (c : Char) : Bool :=
  ('a' ≤ c && c ≤ 'z') || ('A' ≤ c && c ≤ 'Z') || ('0' ≤ c && c ≤ '9') || c = '_'

/-- Non-greedy capture of `(.*?)\}\s*,` (re.S): everything up to the
first `}` that is followed by optional whitespace and a comma. -/
def bibCapture (acc : Str) : Str → Option Str
  | [] => none
  | '}' :: rest =>
    match rest.dropWhile isPySpace with
    | ',' :: _ => some acc.reverse
    | _ => bibCapture ('}' :: acc) rest
  | c :: rest => bibCapture (c :: acc) rest

/-- Try `author\s*=\s*\{(.*?)\}\s*,` (case-insensitive keyword) at the
head of `s`. -/
def bibAuthorMatchAt (s : Str) : Option Str :=
  if ((s.take 6).map pyLowerChar) = pstr "author" then
    match (s.drop 6).dropWhile isPySpace with
    | '=' :: r2 =>
      match r2.dropWhile isPySpace with
      | '{' :: r4 => bibCapture [] r4
      | _ => none
    | _ => none
  else none

/-- Leftmost match of `\bauthor\s*=\s*\{(.*?)\}\s*,` (re.S | re.I):
the word boundary requires the previous character to not be a word
character. -/
def findBibAuthorField (s : Str) : Option Str := go true s
where
  go (boundary : Bool) : Str → Option Str
    | [] => none
    | c :: rest =>
      if boundary then
        match bibAuthorMatchAt (c :: rest) with
        | some cap => some cap
        | none => go (!isWordChar c) rest
      else go (!isWordChar c) rest

/-- The per-name reformatting of `_parse_bibtex_authors`:
`"Family, Given"` becomes `"Given Family"` when a comma is present
(split on the first comma only). -/
def bibReformatName (p : Str) : Str :=
  match findSepOnce (pstr ",") p with
  | none => p
  | some (fam, giv) =>
    let family := stripWs fam
    let given := stripWs giv
    if strT given then stripWs (given ++ pstr " " ++ family) else family

/-- `_parse_bibtex_authors` from repair_publications.py. -/
def _parse_bibtex_authors (bibtex_text : Str) : List Str :=
  match findBibAuthorField bibtex_text with
  | none => []
  | some raw =>
    let raw := stripWs raw
    let parts := ((splitOnSep (pstr " and ") raw).map stripWs).filter strT
    parts.map bibReformatName

/-- `_authors_from_bibtex_href`: the local bibliography files are
external inputs, modelled as a lookup `fs` from the relative href to the
file contents (`none` = missing or unreadable, both of which yield
`[]` in the code). -/
def _authors_from_bibtex_href (fs : Str → Option Str) (href : Option Str) :
    List Str :=
  match _bibtex_path_from_href href with
  | none => []
  | some path =>
    match fs path with
    | none => []
    | some txt => _parse_bibtex_authors txt

/-- `_authors_from_crossref`: score the externally fetched items with
`_crossref_best_match` and flatten the winner's author payload
(`given + " " + family`, stripped, empty names dropped). -/
def _authors_from_crossref (items : List CRItem) (title : Str)
    (year : Option Str) : List Str :=
  match _crossref_best_match title year items with
  | none => []
  | some it =>
    (it.authors.map (fun a =>
      stripWs (stripWs a.1 ++ pstr " " ++ stripWs a.2))).filter strT

/-- `_format_author_list` from repair_publications.py. -/
def _format_author_list (names : List Str) : Str :=
  List.intercalate (pstr ", ")
    ((names.filter (fun n => strT (stripWs n))).map
      (fun n => stripWs (subRuns isPySpace ' ' n)))

/-- Opening-quote class `[“"]` of `extract_title_from_cite`. -/
def titleQuoteOpen (c : Char) : Bool := c = '“' || c = '"'

/-- Closing-quote class `[”"]` of `extract_title_from_cite`. -/
def titleQuoteClose (c : Char) : Bool := c = '”' || c = '"'

/-- Leftmost match of `[“"]([^”"]+)[”"]`: at each opening quote the
greedy nonempty run of non-closing characters must be followed by a
closing quote. -/
def findQuoted : Str → Option Str
  | [] => none
  | c :: rest =>
    if titleQuoteOpen c then
      let run := rest.takeWhile (fun x => !titleQuoteClose x)
      if !run.isEmpty && !(rest.drop run.length).isEmpty then some run
      else findQuoted rest
    else findQuoted rest

/-- `extract_title_from_cite` from repair_publications.py. -/
def extract_title_from_cite (cite : Str) : Str :=
  match findQuoted cite with
  | some title => stripChars (pstr " ,.;") (stripWs title)
  | none => stripChars (pstr " ,.;") (stripWs cite)

/-- `extract_authors_from_cite`: the regex `^(.*?),\s*[“"]` anchored at
the start — the shortest prefix before a comma that is followed by
optional whitespace and an opening quote; no match yields `""`. -/
def extract_authors_from_cite (cite : Str) : Str := go [] cite
where
  go (acc : Str) : Str → Str
    | [] => []
    | c :: rest =>
      if c = ',' &&
          (match rest.dropWhile isPySpace with
           | x :: _ => titleQuoteOpen x
           | [] => false) then
        stripWs acc.reverse
      else go (c :: acc) rest

/-- External collaborators of `rebuild_card`: the local bibliography
filesystem and the decoded Crossref response items per (title, year)
query. -/
structure Env where
  fs : Str → Option Str
  crItems : Str → Option Str → List CRItem

/-- The mojibake repair `rebuild_card` applies to its card first
(lines 383-394). -/
def repairMojibake (card : Card) : Card :=
  { card with
    where_ := _fix_mojibake card.where_
    cite := _fix_mojibake card.cite
    doi := if optT card.doi then some (_fix_mojibake (card.doi.getD [])) else none
    badge := _fix_mojibake card.badge }

/-- Python `dict.get` with the source's truthiness guard
(`if doi_override:` / `if manual:`): only a truthy value replaces the
running badge. -/
def rankGetTruthy (m : List (Str × Str)) (key : Str) (fallback : Str) : Str :=
  match m.lookup key with
  | some v => if strT v then v else fallback
  | none => fallback

/-- The quality-badge resolution of `rebuild_card` before sentinel
normalisation (lines 396-413): start from the card's badge (or `Q?`),
then the DOI override, then the manual title override, then — for a
numeric year ≤ 2022 — the rank map, each overwriting the previous value
when it hits. -/
def badgeValuePre (rank_map : List (Str × Str)) (c : Card) : Str :=
  let b := pyOr c.badge (pstr "Q?")
  let doi_norm := _norm_doi_for_match c.doi
  let b := rankGetTruthy DOI_RANK_OVERRIDES doi_norm b
  let title_for_rank := extract_title_from_cite c.cite
  let b := rankGetTruthy MANUAL_RANKS (_norm title_for_rank) b
  if pyIsDigit c.year && digitsToNat c.year ≤ 2022 then
    match rank_map.lookup (_norm title_for_rank) with
    | some v => v
    | none => b
  else b

/-- The badge `rebuild_card` renders: the `Q?` sentinel becomes the
empty string (lines 415-416). -/
def badgeValue (rank_map : List (Str × Str)) (c : Card) : Str :=
  let b := badgeValuePre rank_map c
  if b = pstr "Q?" then [] else b

/-- The link/DOI-URL reconciliation of `rebuild_card` (lines 418-432):
promote a non-resolver landing page into the DOI hyperlink, then drop a
generic link equal to the DOI URL or itself a DOI-resolver URL.
Returns `(link_url, doi_url)`. -/
def resolveLinkDoi (c : Card) : Option Str × Option Str :=
  let st : Option Str × Option Str :=
    if optT c.doi && optT c.doi_url && optT c.link_url &&
        !((pstr "https://doi.org/").isPrefixOf (c.link_url.getD [])) then
      (none, c.link_url)
    else (c.link_url, c.doi_url)
  let link_url := st.1
  let doi_url := st.2
  let link_url :=
    if optT doi_url && optT link_url &&
        stripWs (link_url.getD []) = stripWs (doi_url.getD []) then none
    else link_url
  let link_url :=
    if optT doi_url && optT link_url &&
        (pstr "https://doi.org/").isPrefixOf (link_url.getD []) then none
    else link_url
  (link_url, doi_url)

/-- The `Paper` URL of `rebuild_card` (lines 435-437):
`card.paper_url`, else `link_url or card.doi_url or card.scholar_url
or "#"`. -/
def resolvePaper (c : Card) (link_url : Option Str) : Str :=
  if optT c.paper_url then c.paper_url.getD []
  else if optT link_url then link_url.getD []
  else if optT c.doi_url then c.doi_url.getD []
  else if optT c.scholar_url then c.scholar_url.getD []
  else pstr "#"

/-- The author-list resolution of `rebuild_card` (lines 441-444):
BibTeX file first, then Crossref, then mojibake-repair each name. -/
def resolveAuthors (env : Env) (c : Card) (title : Str) : List Str :=
  let fromBib := _authors_from_bibtex_href env.fs c.bibtex_url
  let l :=
    if fromBib.isEmpty then
      _authors_from_crossref
        (env.crItems title (if strT c.year then some c.year else none))
        title (if strT c.year then some c.year else none)
    else fromBib
  l.map _fix_mojibake

/-- The citation line of `rebuild_card` (lines 446-452): with a
resolved author list and a title, rebuild the IEEE-like line; otherwise
keep the card's citation text. -/
def resolveCiteLine (env : Env) (c : Card) : Str :=
  let title := extract_title_from_cite c.cite
  let authors_list := resolveAuthors env c title
  let cite_authors :=
    if !authors_list.isEmpty then _format_author_list authors_list
    else extract_authors_from_cite c.cite
  let cite_authors :=
    if strT cite_authors then
      stripChars (pstr " ,") (replaceAll cite_authors (pstr "...") [])
    else cite_authors
  if strT cite_authors && strT title then
    stripWs (cite_authors ++ pstr ", “" ++ title ++ pstr ",” " ++
      c.where_ ++ pstr ".")
  else c.cite

/-- The `parts` list of `rebuild_card` (lines 454-484), one string per
`parts.append`. -/
def rebuild_card_parts (env : Env) (rank_map : List (Str × Str))
    (card0 : Card) : List Str :=
  let card := repairMojibake card0
  let badge_value := badgeValue rank_map card
  let lu := resolveLinkDoi card
  let link_url := lu.1
  let doi_url := lu.2
  let paper_url := resolvePaper card link_url
  let cite_line := resolveCiteLine env card
  [pstr "      <article class=\"card pub-card\">",
   pstr "        <div class=\"pub-top\">",
   pstr "          <div class=\"pub-where\">" ++ html_escape card.where_ ++ pstr "</div>",
   pstr "          <div class=\"badges\">"] ++
  (if strT card.year then
    [pstr "            <span class=\"badge\">" ++ html_escape card.year ++ pstr "</span>"]
   else []) ++
  (if strT badge_value then
    [pstr "            <span class=\"badge badge-muted\">" ++ html_escape badge_value ++ pstr "</span>"]
   else []) ++
  [pstr "          </div>",
   pstr "        </div>",
   pstr "        <p class=\"pub-cite\">" ++ html_escape cite_line ++ pstr "</p>"] ++
  (if optT card.doi && optT doi_url then
    [pstr "        <p class=\"pub-doi\">DOI: <a href=\"" ++
      html_escape (doi_url.getD []) ++ pstr "\">" ++
      html_escape (card.doi.getD []) ++ pstr "</a></p>"]
   else []) ++
  [pstr "        <div class=\"pub-links\">"] ++
  (if optT link_url then
    [pstr "          <a href=\"" ++ html_escape (link_url.getD []) ++ pstr "\">Link</a>"]
   else []) ++
  (if optT card.scholar_url then
    [pstr "          <a href=\"" ++ html_escape (card.scholar_url.getD []) ++ pstr "\">Scholar</a>"]
   else []) ++
  (if optT card.bibtex_url then
    [pstr "          <a href=\"" ++ html_escape (card.bibtex_url.getD []) ++ pstr "\" download>BibTeX</a>"]
   else [pstr "          <a href=\"#\">BibTeX</a>"]) ++
  [pstr "          <a href=\"" ++ html_escape paper_url ++ pstr "\">Paper</a>",
   pstr "          <a href=\"#\">Video</a>",
   pstr "        </div>",
   pstr "      </article>"]

/-- `rebuild_card`: "\n".join(parts). -/
def rebuild_card (env : Env) (rank_map : List (Str × Str)) (card : Card) : Str :=
  List.intercalate (pstr "\n") (rebuild_card_parts env rank_map card)

/-- The kept cards of `_render_list`: those no exclusion filter drops. -/
def keptCards (cards : List Card) : List Card :=
  cards.filter (fun c => !_should_exclude c)

/-- A card year that `_render_list` groups (lines 494-496): truthy,
all digits, and not in the year exclusion set. -/
def eligibleYear (y : Str) : Bool :=
  strT y && pyIsDigit y && !EXCLUDE_YEARS.contains y

/-- `dict.setdefault(key, []).append(x)` over an insertion-ordered
association list. -/
def addToGroup {α : Type} (m : List (Str × List α)) (y : Str) (x : α) :
    List (Str × List α) :=
  match m with
  | [] => [(y, [x])]
  | (k, l) :: rest =>
    if k = y then (k, l ++ [x]) :: rest else (k, l) :: addToGroup rest y x

/-- The `by_year` dictionary of `_render_list` (lines 492-498):
insertion-ordered groups of rebuilt card strings, skipping cards whose
year is empty, non-numeric or excluded. -/
def byYear (env : Env) (rank_map : List (Str × Str)) (cards : List Card) :
    List (Str × List Str) :=
  cards.foldl
    (fun m c =>
      if eligibleYear c.year then addToGroup m c.year (rebuild_card env rank_map c)
      else m) []

/-- `years_sorted` (line 500): the group keys sorted descending by
numeric value (every key is an all-digit string by construction, so
`int` is `digitsToNat`). -/
def yearsSorted (m : List (Str × List Str)) : List Str :=
  pySorted (fun a b => digitsToNat b ≤ digitsToNat a) (m.map Prod.fst)

/-- `_render_list` from repair_publications.py. -/
def _render_list (env : Env) (rank_map : List (Str × Str))
    (cards : List Card) : Str :=
  let m := byYear env rank_map (keptCards cards)
  let parts := (yearsSorted m).foldl
    (fun parts y =>
      match m.lookup y with
      | none => parts
      | some items =>
        if items.isEmpty then parts
        else
          parts ++
            [pstr "    <h3 class=\"pub-year\">" ++ html_escape y ++ pstr "</h3>",
             pstr "    <div class=\"pub-list\">",
             List.intercalate (pstr "\n") items,
             pstr "    </div>"]) []
  List.intercalate (pstr "\n") parts ++ pstr "\n"

/-- Scan for the first position where `\s*</section>` matches: returns
the content before it and the rest of the document from that position
(`m.end(2)` onwards).  The literal starts with a non-whitespace `<`, so
the greedy `\s*` always consumes the whole whitespace run. -/
def findCloserSec : Str → Option (Str × Str)
  | [] => none
  | c :: rest =>
    if (pstr "</section>").isPrefixOf ((c :: rest).dropWhile isPySpace) then
      some ([], c :: rest)
    else (findCloserSec rest).map (fun p => (c :: p.1, p.2))

/-- Try `(<section>\s*<h2>List</h2>\s*)(.*?)(\s*</section>)` (re.S) at
the head of `s`: returns (group 1, group 2, the document from
`m.end(2)`). -/
def matchListSectionAt (s : Str) : Option (Str × Str × Str) :=
  if (pstr "<section>").isPrefixOf s then
    let r1 := s.drop 9
    let w1 := r1.takeWhile isPySpace
    let r2 := r1.dropWhile isPySpace
    if (pstr "<h2>List</h2>").isPrefixOf r2 then
      let r3 := r2.drop 13
      let w2 := r3.takeWhile isPySpace
      let r4 := r3.dropWhile isPySpace
      match findCloserSec r4 with
      | some (mid, rest) =>
        some (pstr "<section>" ++ w1 ++ pstr "<h2>List</h2>" ++ w2, mid, rest)
      | none => none
    else none
  else none

/-- The `re.search` of `main` (line 521): leftmost match of
`(<section>\s*<h2>List</h2>\s*)(.*?)(\s*</section>)`; returns
(everything before group 2, group 2, everything from the end of
group 2). -/
def findListSec : Str → Option (Str × Str × Str)
  | [] => none
  | c :: rest =>
    match matchListSectionAt (c :: rest) with
    | some r => some r
    | none => (findListSec rest).map (fun t => (c :: t.1, t.2.1, t.2.2))

/-- `re.search(openTag + "(.*?)" + closeTag, block, re.S)`: leftmost
opening literal, shortest middle up to the first closing literal. -/
def searchBetween (openTag closeTag block : Str) : Option Str :=
  match findSepOnce openTag block with
  | none => none
  | some (_, rest) => (findSepOnce closeTag rest).map Prod.fst

/-- `re.search(r"<span class=\"badge\">(\d{4})</span>", block)`:
leftmost occurrence of the opening literal followed by exactly four
digits and the closing literal; a failed occurrence is skipped from one
character past its start.  `fuel` bounds the skips (the block length
always suffices). -/
def searchYear : Nat → Str → Option Str
  | 0, _ => none
  | fuel + 1, block =>
    match findSepOnce (pstr "<span class=\"badge\">") block with
    | none => none
    | some (_, rest) =>
      let digits := rest.take 4
      if digits.length = 4 && digits.all isDigitChar &&
          (pstr "</span>").isPrefixOf (rest.drop 4) then some digits
      else searchYear fuel (pstr "span class=\"badge\">" ++ rest)

/-- Find `href="` within the run of non-`>` characters of an anchor tag
(each rendered anchor carries exactly one `href`, so the greedy
`[^>]*href="` selects it); returns what follows the quote. -/
def findHrefInTag : Str → Option Str
  | [] => none
  | c :: rest =>
    if c = '>' then none
    else if (pstr "href=\"").isPrefixOf (c :: rest) then some ((c :: rest).drop 6)
    else findHrefInTag rest

/-- The tail of the DOI regex after its opening literal:
`\s*DOI:\s*<a[^>]*href="([^"]+)"[^>]*>(.*?)</a>` (re.S); returns
(href, anchor text). -/
def doiTailAt (rest : Str) : Option (Str × Str) :=
  let r := rest.dropWhile isPySpace
  if (pstr "DOI:").isPrefixOf r then
    let r := (r.drop 4).dropWhile isPySpace
    if (pstr "<a").isPrefixOf r then
      let r := r.drop 2
      match findHrefInTag r with
      | none => none
      | some afterQuote =>
        let url := afterQuote.takeWhile (fun c => c ≠ '"')
        if url.isEmpty then none
        else
          match afterQuote.drop url.length with
          | '"' :: r3 =>
            match r3.dropWhile (fun c => c ≠ '>') with
            | '>' :: r4 => (findSepOnce (pstr "</a>") r4).map (fun p => (url, p.1))
            | _ => none
          | _ => none
    else none
  else none

/-- `re.search` of the `pub-doi` pattern (line 355): leftmost occurrence
of `<p class="pub-doi">` whose tail matches; failures are skipped from
one character past their start. -/
def searchDoi : Nat → Str → Option (Str × Str)
  | 0, _ => none
  | fuel + 1, block =>
    match findSepOnce (pstr "<p class=\"pub-doi\">") block with
    | none => none
    | some (_, rest) =>
      match doiTailAt rest with
      | some r => some r
      | none => searchDoi fuel (pstr "p class=\"pub-doi\">" ++ rest)

/-- Try `<a\s+href="([^"]+)"[^>]*>([^<]+)</a>` at the head of `s`:
returns (url, text, remainder after the match). -/
def matchLinkAt (s : Str) : Option (Str × Str × Str) :=
  if (pstr "<a").isPrefixOf s then
    let r := s.drop 2
    if (r.takeWhile isPySpace).isEmpty then none
    else
      let r := r.dropWhile isPySpace
      if (pstr "href=\"").isPrefixOf r then
        let r := r.drop 6
        let url := r.takeWhile (fun c => c ≠ '"')
        if url.isEmpty then none
        else
          match r.drop url.length with
          | '"' :: r3 =>
            match r3.dropWhile (fun c => c ≠ '>') with
            | '>' :: r4 =>
              let text := r4.takeWhile (fun c => c ≠ '<')
              if text.isEmpty then none
              else
                let r5 := r4.drop text.length
                if (pstr "</a>").isPrefixOf r5 then
                  some (url, text, r5.drop 4)
                else none
            | _ => none
          | _ => none
      else none
  else none

/-- `re.finditer` of the links pattern (line 361): all non-overlapping
matches, left to right.  `fuel` bounds the scan steps (the block length
always suffices). -/
def findLinksGo : Nat → Str → List (Str × Str)
  | 0, _ => []
  | _, [] => []
  | fuel + 1, c :: rest =>
    match matchLinkAt (c :: rest) with
    | some (u, t, rem) => (u, t) :: findLinksGo fuel rem
    | none => findLinksGo fuel rest

/-- The links dictionary comprehension (lines 359-362): a later anchor
with the same visible text overwrites an earlier one; each stored value
is `_clean_url(m.group(1))`. -/
def linksGet (links : List (Str × Str)) (label : Str) : Option Str :=
  match (links.filter (fun p => p.2 = label)).getLast? with
  | none => none
  | some p => _clean_url (some p.1)

/-- `re.findall` of the article-block pattern (line 349): all
non-overlapping `<article class="card pub-card">.*?</article>` matches.
`fuel` bounds the number of blocks (the document length always
suffices). -/
def findBlocks : Nat → Str → List Str
  | 0, _ => []
  | fuel + 1, doc =>
    match findSepOnce (pstr "<article class=\"card pub-card\">") doc with
    | none => []
    | some (_, rest) =>
      match findSepOnce (pstr "</article>") rest with
      | none => []
      | some (mid, rest2) =>
        (pstr "<article class=\"card pub-card\">" ++ mid ++ pstr "</article>") ::
          findBlocks fuel rest2

/-- One `Card` from one article block (the loop body of `parse_cards`). -/
def parseBlock (block : Str) : Card :=
  let whereM := searchBetween (pstr "<div class=\"pub-where\">") (pstr "</div>") block
  let citeM := searchBetween (pstr "<p class=\"pub-cite\">") (pstr "</p>") block
  let yearM := searchYear (block.length + 1) block
  let badgeM := searchBetween (pstr "<span class=\"badge badge-muted\">") (pstr "</span>") block
  let doiM := searchDoi (block.length + 1) block
  let doi_url := doiM.bind (fun p => _clean_url (some p.1))
  let doi_txt := doiM.map (fun p => stripWs (html_unescape p.2))
  let links := findLinksGo (block.length + 1) block
  Card.mk
    (yearM.getD [])
    (match whereM with | some w => stripWs (html_unescape w) | none => [])
    (match citeM with | some c => stripWs (html_unescape (subRuns isPySpace ' ' c)) | none => [])
    doi_txt
    doi_url
    (_clean_url (linksGet links (pstr "Scholar")))
    (_clean_url (linksGet links (pstr "BibTeX")))
    (_clean_url (linksGet links (pstr "Link")))
    (_clean_url (linksGet links (pstr "Paper")))
    (match badgeM with | some b => stripWs (html_unescape b) | none => pstr "Q?")

/-- `parse_cards` from repair_publications.py. -/
def parse_cards (doc : Str) : List Card :=
  (findBlocks (doc.length + 1) doc).map parseBlock

/-- The document transformation of `main` (lines 513-526): locate the
List section (failure raises `SystemExit`, a nonzero exit before any
write — modelled as `Except.error` carrying the message) and replace
exactly its inner content with the freshly rendered list. -/
def mainTransform (env : Env) (rank_map : List (Str × Str)) (doc : Str) :
    Except Str Str :=
  let cards := parse_cards doc
  let new_list := _render_list env rank_map cards
  match findListSec doc with
  | none => .error (pstr "Could not find publications List section")
  | some (pre, _mid, post) => .ok (pre ++ new_list ++ post)

end RepairPublications

section BuildPublicationsHtml
/-!  ## update_publications.py — renderer  -/

/-- `year_key` inside `build_publications_html`. -/
def year_key (y : Str) : Int :=
  if pyIsDigit y then (digitsToNat y : Int) else -1

/-- The `groups` dictionary of `build_publications_html`
(lines 236-239). -/
def buildPubGroups (pubs : List EnrichedPub) : List (Str × List EnrichedPub) :=
  pubs.foldl (fun gs p => addToGroup gs (pyOr p.pub.year (pstr "Unknown")) p) []

/-- `sorted(groups.keys(), key=year_key, reverse=True)` (Python's sort
is stable, also with `reverse=True`). -/
def sortedGroupKeys (gs : List (Str × List EnrichedPub)) : List Str :=
  pySorted (fun a b => year_key b ≤ year_key a) (gs.map Prod.fst)

/-- The lines one enriched publication appends inside
`build_publications_html` (lines 248-291), one string per
`out.append`. -/
def pubCardLines (ep : EnrichedPub) : List Str :=
  let p := ep.pub
  let whereLine :=
    if strT p.year && !containsSub p.venue p.year then
      (if strT p.venue then p.venue ++ pstr ", " ++ p.year else p.year)
    else p.venue
  let cite := subRuns isPySpace ' '
    (stripWs (p.authors ++ pstr ", “" ++ p.title ++ pstr ",” " ++
      p.venue ++ pstr ", " ++ p.year ++ pstr "."))
  let link_url :=
    if optT ep.link_url then ep.link_url.getD []
    else if optT ep.doi_url then ep.doi_url.getD []
    else p.scholar_url
  let paper_url := if optT ep.pdf_url then ep.pdf_url.getD [] else link_url
  let bib_href :=
    if optT ep.bib_filename then pstr "bibtex/" ++ ep.bib_filename.getD []
    else pstr "#"
  [pstr "      <article class=\"card pub-card\">",
   pstr "        <div class=\"pub-top\">",
   pstr "          <div class=\"pub-where\">" ++ html_escape whereLine ++ pstr "</div>",
   pstr "          <div class=\"badges\">"] ++
  (if strT p.year then
    [pstr "            <span class=\"badge\">" ++ html_escape p.year ++ pstr "</span>"]
   else []) ++
  [pstr "            <span class=\"badge badge-muted\">Q?</span>",
   pstr "          </div>",
   pstr "        </div>",
   pstr "        <p class=\"pub-cite\">" ++ html_escape cite ++ pstr "</p>"] ++
  (if optT ep.doi && optT ep.doi_url then
    [pstr "        <p class=\"pub-doi\">DOI: <a href=\"" ++
      html_escape (ep.doi_url.getD []) ++ pstr "\">" ++
      html_escape (ep.doi.getD []) ++ pstr "</a></p>"]
   else []) ++
  [pstr "        <div class=\"pub-links\">",
   pstr "          <a href=\"" ++ html_escape link_url ++ pstr "\">Link</a>",
   pstr "          <a href=\"" ++ html_escape p.scholar_url ++ pstr "\">Scholar</a>"] ++
  (if optT ep.bib_filename then
    [pstr "          <a href=\"" ++ html_escape bib_href ++ pstr "\" download>BiBTeX</a>"]
   else [pstr "          <a href=\"#\">BibTeX</a>"]) ++
  [pstr "          <a href=\"" ++ html_escape paper_url ++ pstr "\">Paper</a>",
   pstr "          <a href=\"#\">Video</a>",
   pstr "        </div>",
   pstr "      </article>"]

/-- The lines one year group contributes in `build_publications_html`
(`groups[y]` is always found, the keys come from the dictionary; the
`none` branch is unreachable and contributes nothing). -/
def buildGroupBlock (gs : List (Str × List EnrichedPub)) (y : Str) : List Str :=
  match gs.lookup y with
  | none => []
  | some eps =>
    [pstr "    <h3 class=\"pub-year\">" ++ html_escape y ++ pstr "</h3>",
     pstr "    <div class=\"pub-list\">"] ++
    eps.flatMap pubCardLines ++
    [pstr "    </div>"]

/-- The `out` line list of `build_publications_html`. -/
def build_publications_lines (pubs : List EnrichedPub) : List Str :=
  let gs := buildPubGroups pubs
  (sortedGroupKeys gs).foldl (fun out y => out ++ buildGroupBlock gs y) []

/-- `build_publications_html` from update_publications.py. -/
def build_publications_html (pubs : List EnrichedPub) : Str :=
  List.intercalate (pstr "\n") (build_publications_lines pubs) ++ pstr "\n"

/-- The literal sentinel badge line emitted by
`build_publications_html`. -/
def sentinelBadgeLine : Str :=
  pstr "            <span class=\"badge badge-muted\">Q?</span>"

end BuildPublicationsHtml

section Detectors
/-!  ## Output-shape detectors used by the theorems  -/

/-- A rendered line is a separate `Link` entry exactly when it ends in
`>Link</a>` (every other line of a card ends in a different fixed
literal). -/
def linkEntryMark : Str := pstr ">Link</a>"

/-- Whether a card's line list contains a separate `Link` entry. -/
def hasLinkEntry (parts : List Str) : Bool :=
  parts.any (fun s => linkEntryMark.isSuffixOf s)

/-- The fixed opening of the quality-badge element. -/
def mutedBadgeMark : Str := pstr "            <span class=\"badge badge-muted\">"

/-- Whether a card's line list contains a quality-badge element. -/
def hasMutedBadge (parts : List Str) : Bool :=
  parts.any (fun s => mutedBadgeMark.isPrefixOf s)

end Detectors

section DemoInputs
/-!  ## Concrete inputs used by counterexamples and witnesses  -/

/-- An environment with no bibliography files and an empty registry
response (all external lookups fail, as the code tolerates). -/
def emptyEnv : Env := ⟨fun _ => none, fun _ _ => []⟩

/-- A 2022 card whose normalized title carries a `MANUAL_RANKS` curator
override (`Q2`). -/
def demoCardC1 : Card :=
  ⟨pstr "2022", pstr "Journal X",
   pstr "A. Author, “Regulated Pure Pursuit for Robot Path Tracking,” Journal X.",
   none, none, none, none, none, none, pstr "Q?"⟩

/-- A rank table carrying `Q1` for the same normalized title. -/
def demoRankMapC1 : List (Str × Str) :=
  [(pstr "regulated pure pursuit for robot path tracking", pstr "Q1")]

/-- A minimal enriched publication (no external enrichment). -/
def demoPubC2 : Pub :=
  ⟨pstr "A Study", pstr "J. Smith", pstr "Journal X", pstr "2022",
   pstr "https://scholar.example/a"⟩

/-- Its enriched record as `main` would build it with all lookups
failed. -/
def demoEnrichedC2 : EnrichedPub := ⟨demoPubC2, none, none, none, none, none⟩

/-- A Crossref item whose title shares no word with `"alpha beta"`. -/
def demoItemC4 : CRItem := ⟨[pstr "gamma delta"], [[some 2020]], []⟩

/-- Two publications with the same (casefolded title, year) key and one
with a fresh key. -/
def demoPubsC5 : List Pub :=
  [⟨pstr "A Study", pstr "J. Smith", pstr "Venue", pstr "2020", pstr "u1"⟩,
   ⟨pstr "a study", pstr "J. Smith and O. Other", pstr "Venue B", pstr "2020", pstr "u2"⟩,
   ⟨pstr "Another Work", pstr "J. Smith", pstr "Venue", pstr "2021", pstr "u3"⟩]

/-- A card whose generic link equals its DOI URL (the spec's concrete
scenario). -/
def demoCardC6 : Card :=
  ⟨pstr "2022", pstr "Journal X", pstr "J. Smith, “A Study,” Journal X.",
   some (pstr "10.1000/xyz"), some (pstr "https://doi.org/10.1000/xyz"),
   none, none, some (pstr "https://doi.org/10.1000/xyz"), none, pstr "Q?"⟩

/-- Cards for the grouping witness: two years out of order and one
non-numeric year. -/
def demoCardsC7 : List Card :=
  [⟨pstr "2020", pstr "V1", pstr "“T1,” V1.", none, none, none, none, none, none, pstr "Q?"⟩,
   ⟨pstr "2024", pstr "V2", pstr "“T2,” V2.", none, none, none, none, none, none, pstr "Q?"⟩,
   ⟨pstr "20xy", pstr "V3", pstr "“T3,” V3.", none, none, none, none, none, none, pstr "Q?"⟩,
   ⟨pstr "2024", pstr "V4", pstr "“T4,” V4.", none, none, none, none, none, none, pstr "Q?"⟩]

/-- A document with the labeled List section and one pub card. -/
def demoDocC8 : Str :=
  pstr "<html><section>\n<h2>List</h2>\nOLD\n</section></html>"

/-- A document with no List section. -/
def demoDocC8bad : Str := pstr "<html><section><h2>Other</h2></section></html>"

/-- A competitive project whose end date has three fields but a
non-integer year: `int(y)` raises. -/
def demoProjC9 : Projects.CompetitiveProject :=
  ⟨pstr "Some Project", pstr "1/1/20", pstr "1/1/x", pstr "Funder", []⟩

/-- A fixed "today" (2026-02-15, the curation date named in the
source). -/
def demoTodayC9 : Projects.PyDate := ⟨2026, 2, 15⟩

/-- A project with a future end date (ongoing). -/
def demoProjOngoing : Projects.CompetitiveProject :=
  ⟨pstr "Future Project", pstr "1/1/24", pstr "31/12/99", pstr "F", []⟩

/-- A project with a past end date. -/
def demoProjPast : Projects.CompetitiveProject :=
  ⟨pstr "Old Project", pstr "1/1/18", pstr "31/12/20", pstr "F", []⟩

/-- A force-past project with an unparseable end date: the force-past
set wins before the date is ever parsed. -/
def demoProjForced : Projects.CompetitiveProject :=
  ⟨pstr "Ciberseguridad y seguridad en arquitecturas cognitivas para robots",
   pstr "1/1/24", pstr "not/a/date", pstr "F", []⟩

/-- The input document for the idempotence analysis: its one card has a
year badge and a citation but no hyperlinks at all (in particular no
BibTeX anchor). -/
def demoDocC3 : Str :=
  pstr "<section>\n<h2>List</h2>\n<article class=\"card pub-card\"><span class=\"badge\">2024</span><p class=\"pub-cite\">A. Author, “T,” V.</p></article>\n</section>"

/-- The card `parse_cards` extracts from `demoDocC3` (no links, default
`Q?` badge). -/
def demoCardC3parsed : Card :=
  ⟨pstr "2024", [], pstr "A. Author, “T,” V.",
   none, none, none, none, none, none, pstr "Q?"⟩

/-- The first pipeline run on `demoDocC3` (the successful payload of
`mainTransform`; see `C3Proof`). -/
def demoDocC3Run1 : Str :=
  (mainTransform emptyEnv [] demoDocC3).toOption.getD []

/-- The second pipeline run, on the first run's own output, with the
same (empty) external sources. -/
def demoDocC3Run2 : Str :=
  (mainTransform emptyEnv [] demoDocC3Run1).toOption.getD []

end DemoInputs

/-!  # Theorems  -/

section Helpers

theorem strT_append_ne (a b : Str) (hb : b ≠ []) : strT (a ++ b) = true := by
  cases a with
  | nil => simpa [strT, List.isEmpty_iff] using hb
  | cons c t => simp [strT]

theorem subRunsAux_chars (p : Char → Bool) (r : Char) (s : Str) :
    ∀ c ∈ (subRunsAux p r s).1, c = r ∨ p c = false := by
  induction s with
  | nil => simp [subRunsAux]
  | cons x t ih =>
    intro c hc
    simp only [subRunsAux] at hc
    by_cases hx : p x = true
    · simp only [hx, if_true] at hc
      by_cases h2 : (subRunsAux p r t).2 = true
      · simp only [h2, if_true] at hc
        exact ih c hc
      · simp only [eq_false_of_ne_true h2, Bool.false_eq_true, if_false,
          List.mem_cons] at hc
        rcases hc with h | h
        · exact Or.inl h
        · exact ih c h
    · simp only [eq_false_of_ne_true hx, Bool.false_eq_true, if_false,
        List.mem_cons] at hc
      rcases hc with h | h
      · subst h; exact Or.inr (eq_false_of_ne_true hx)
      · exact ih c h

theorem subRuns_chars (p : Char → Bool) (r : Char) (s : Str) :
    ∀ c ∈ subRuns p r s, c = r ∨ p c = false :=
  subRunsAux_chars p r s

end Helpers

section C10Proof

/-- C10 — bibliography filename invariant: every enriched publication
ends the enrichment loop with a nonempty (`.bib`-suffixed) BibTeX
filename, whatever the external DOI/BibTeX lookups returned; and every
character of a `_sanitize_doi` filename stem is one of `a-z`, `0-9`,
`.`, `_`, `-`. -/
theorem C10_bib_filename :
    (∀ (h : Str) (p : Pub) (doi fetched : Option Str),
      strT (bibFilenameFor h p doi fetched) = true) ∧
    (∀ (doi : Str), ∀ c ∈ _sanitize_doi doi, isSanAllowed c = true) := by
  constructor
  · intro h p doi fetched
    unfold bibFilenameFor
    have hb : pstr ".bib" ≠ [] := by decide
    split
    · split
      · exact strT_append_ne _ _ hb
      · exact strT_append_ne _ _ hb
    · exact strT_append_ne _ _ hb
  · intro doi c hc
    unfold _sanitize_doi at hc
    rcases subRuns_chars _ '_' _ c hc with h | h
    · subst h; decide
    · simpa using h

/-- C10 witness: the filename invariant at a concrete DOI and at a
concrete fallback digest. -/
theorem C10_bib_filename_witness :
    strT (bibFilenameFor (pstr "0123456789") demoPubC2
      (some (pstr "10.1000/XYZ")) (some (pstr "@article"))) = true ∧
    isSanAllowed '1' = true := by
  refine ⟨C10_bib_filename.1 _ _ _ _, ?_⟩
  exact C10_bib_filename.2 (pstr "10.1000/XYZ") '1' (by decide)

end C10Proof

section C5Proof

theorem dedupGo_sublist (l : List Pub) (seen : List (Str × Str)) :
    (dedupGo seen l).Sublist l := by
  induction l generalizing seen with
  | nil => simp [dedupGo]
  | cons q rest ih =>
    unfold dedupGo
    by_cases hk : dedupKey q ∈ seen
    · simp only [hk, if_true]
      exact (ih seen).cons q
    · simp only [hk, if_false]
      exact (ih (dedupKey q :: seen)).cons₂ q

theorem mem_dedupGo (l : List Pub) :
    ∀ (seen : List (Str × Str)) (p : Pub),
      p ∈ dedupGo seen l ↔
        (dedupKey p ∉ seen ∧
          l.find? (fun q => decide (dedupKey q = dedupKey p)) = some p) := by
  induction l with
  | nil => intro seen p; simp [dedupGo]
  | cons q rest ih =>
    intro seen p
    by_cases hqp : dedupKey q = dedupKey p
    · have hfind : (q :: rest).find? (fun x => decide (dedupKey x = dedupKey p)) =
          some q := List.find?_cons_of_pos _ (by simp [hqp])
      rw [hfind]
      by_cases hk : dedupKey q ∈ seen
      · rw [show dedupGo seen (q :: rest) = dedupGo seen rest from by
          simp [dedupGo, hk]]
        rw [ih]
        constructor
        · rintro ⟨hns, -⟩; exact absurd (hqp ▸ hk) hns
        · rintro ⟨hns, -⟩; exact absurd (hqp ▸ hk) hns
      · rw [show dedupGo seen (q :: rest) = q :: dedupGo (dedupKey q :: seen) rest
            from by simp [dedupGo, hk]]
        simp only [List.mem_cons]
        constructor
        · rintro (h | hmem)
          · exact ⟨hqp ▸ hk, by rw [h]⟩
          · obtain ⟨hns, -⟩ := (ih _ p).mp hmem
            exact absurd (List.mem_cons_self _ _) (hqp ▸ hns)
        · rintro ⟨-, h⟩
          exact Or.inl (Option.some.inj h).symm
    · have hfind : (q :: rest).find? (fun x => decide (dedupKey x = dedupKey p)) =
          rest.find? (fun x => decide (dedupKey x = dedupKey p)) :=
        List.find?_cons_of_neg _ (by simp [hqp])
      rw [hfind]
      by_cases hk : dedupKey q ∈ seen
      · rw [show dedupGo seen (q :: rest) = dedupGo seen rest from by
          simp [dedupGo, hk]]
        exact ih seen p
      · rw [show dedupGo seen (q :: rest) = q :: dedupGo (dedupKey q :: seen) rest
            from by simp [dedupGo, hk]]
        simp only [List.mem_cons]
        rw [ih]
        constructor
        · rintro (h | ⟨hns, hf⟩)
          · exact absurd (congrArg dedupKey h).symm hqp
          · exact ⟨fun hm => hns (List.mem_cons_of_mem _ hm), hf⟩
        · rintro ⟨hns, hf⟩
          refine Or.inr ⟨?_, hf⟩
          intro hm
          rcases List.mem_cons.mp hm with h | h
          · exact hqp h.symm
          · exact hns h

theorem dedupGo_keys (l : List Pub) :
    ∀ seen : List (Str × Str),
      ((dedupGo seen l).map dedupKey).Nodup ∧
        ∀ p ∈ dedupGo seen l, dedupKey p ∉ seen := by
  induction l with
  | nil => intro seen; simp [dedupGo]
  | cons q rest ih =>
    intro seen
    unfold dedupGo
    by_cases hk : dedupKey q ∈ seen
    · simpa only [hk, if_true] using ih seen
    · simp only [hk, if_false, List.map_cons, List.nodup_cons, List.mem_map]
      obtain ⟨hnd, hmem⟩ := ih (dedupKey q :: seen)
      refine ⟨⟨?_, hnd⟩, ?_⟩
      · rintro ⟨p, hp, hkey⟩
        exact (hmem p hp) (hkey ▸ List.mem_cons_self _ _)
      · intro p hp
        rcases List.mem_cons.mp hp with h | h
        · subst h; exact hk
        · intro hs
          exact (hmem p h) (List.mem_cons_of_mem _ hs)

/-- C5 — profile-fetch deduplication by the key
`(title.casefold(), year)`: the deduplicated list is a sublist of the
input (order preserved), its keys are pairwise distinct (duplicates
collapse to one), and a record survives exactly when it is the first
record of the input carrying its key. -/
theorem C5_dedup_first_wins (l : List Pub) :
    (dedupPubs l).Sublist l ∧
    ((dedupPubs l).map dedupKey).Nodup ∧
    ∀ p : Pub, p ∈ dedupPubs l ↔
      l.find? (fun q => decide (dedupKey q = dedupKey p)) = some p := by
  refine ⟨dedupGo_sublist l [], (dedupGo_keys l []).1, ?_⟩
  intro p
  rw [dedupPubs, mem_dedupGo]
  simp

/-- C5 witness: on a concrete list with a duplicated key, only the
first of the two survives and the fresh key is kept. -/
theorem C5_dedup_first_wins_witness :
    (dedupPubs demoPubsC5).Sublist demoPubsC5 ∧
    ((dedupPubs demoPubsC5).map dedupKey).Nodup := by
  obtain ⟨h1, h2, -⟩ := C5_dedup_first_wins demoPubsC5
  exact ⟨h1, h2⟩

end C5Proof

section C4Proof

theorem scoreItem_le_bonus (norm : Str → Str) (title : Str) (year : Option Str)
    (it : CRItem)
    (h : ∀ w ∈ splitWs (norm (itFirstTitle it)), w ∉ splitWs (norm title)) :
    scoreItem norm title year it ≤ 8/100 := by
  unfold scoreItem
  by_cases hc : strT (norm (itFirstTitle it)) = true
  · simp only [hc, Bool.not_true, Bool.false_eq_true, if_false]
    have hint : ((splitWs (norm title)).toFinset ∩
        (splitWs (norm (itFirstTitle it))).toFinset) = ∅ := by
      apply Finset.eq_empty_iff_forall_not_mem.mpr
      intro x hx
      rcases Finset.mem_inter.mp hx with ⟨hw, hcand⟩
      exact h x (List.mem_toFinset.mp hcand) (List.mem_toFinset.mp hw)
    rw [hint]
    simp only [Finset.card_empty, Nat.cast_zero, zero_div, zero_add]
    split
    · norm_num
    · norm_num
  · simp only [eq_false_of_ne_true hc, Bool.not_false, if_true]
    norm_num

theorem pyMaxBy_le (f : CRItem → ℚ) (B : ℚ) :
    ∀ (l : List CRItem) (b : CRItem), f b ≤ B → (∀ x ∈ l, f x ≤ B) →
      f (pyMaxBy f b l) ≤ B := by
  intro l
  induction l with
  | nil => intro b hb _; simpa [pyMaxBy] using hb
  | cons x t ih =>
    intro b hb hall
    unfold pyMaxBy
    split
    · exact ih _ (hall x (List.mem_cons_self _ _))
        (fun y hy => hall y (List.mem_cons_of_mem _ hy))
    · exact ih _ hb (fun y hy => hall y (List.mem_cons_of_mem _ hy))

theorem crossrefBestCore_none (norm : Str → Str) (title : Str)
    (year : Option Str) (items : List CRItem)
    (h : ∀ it ∈ items, ∀ w ∈ splitWs (norm (itFirstTitle it)),
      w ∉ splitWs (norm title)) :
    crossrefBestCore norm title year items = none := by
  cases items with
  | nil => rfl
  | cons first rest =>
    unfold crossrefBestCore
    have hb : scoreItem norm title year
        (pyMaxBy (scoreItem norm title year) first rest) ≤ 8/100 :=
      pyMaxBy_le _ _ rest first
        (scoreItem_le_bonus _ _ _ _ (h first (List.mem_cons_self _ _)))
        (fun x hx => scoreItem_le_bonus _ _ _ _ (h x (List.mem_cons_of_mem _ hx)))
    have hlt : scoreItem norm title year
        (pyMaxBy (scoreItem norm title year) first rest) < 35/100 :=
      lt_of_le_of_lt hb (by norm_num)
    simp only [hlt, if_true]

/-- C4 — fuzzy-matcher threshold: word-set-disjoint candidates are
never returned, whatever the query year (the 0.08 year bonus cannot
reach the 0.35 threshold), and an empty candidate list yields no match;
for both the repair-side matcher (`_norm`) and the update-side matcher
(`_norm_title`). -/
theorem C4_threshold (title : Str) (yearR : Option Str) (yearU : Str)
    (items : List CRItem) :
    ((∀ it ∈ items, ∀ w ∈ splitWs (_norm (itFirstTitle it)),
        w ∉ splitWs (_norm title)) →
      _crossref_best_match title yearR items = none) ∧
    ((∀ it ∈ items, ∀ w ∈ splitWs (_norm_title (itFirstTitle it)),
        w ∉ splitWs (_norm_title title)) →
      crossref_best_match title yearU items = none) ∧
    _crossref_best_match title yearR [] = none ∧
    crossref_best_match title yearU [] = none :=
  ⟨fun h => crossrefBestCore_none _ _ _ _ h,
   fun h => crossrefBestCore_none _ _ _ _ h, rfl, rfl⟩

/-- C4 witness: a concrete disjoint query/candidate pair with a
matching year is rejected by both matchers. -/
theorem C4_threshold_witness :
    _crossref_best_match (pstr "alpha beta") (some (pstr "2020")) [demoItemC4] = none ∧
    crossref_best_match (pstr "alpha beta") (pstr "2020") [demoItemC4] = none :=
  ⟨(C4_threshold (pstr "alpha beta") (some (pstr "2020")) (pstr "2020")
      [demoItemC4]).1 (by decide),
   (C4_threshold (pstr "alpha beta") (some (pstr "2020")) (pstr "2020")
      [demoItemC4]).2.1 (by decide)⟩

end C4Proof

section C9Proof

/-- C9 counterexample: a non-forced project whose end date is `1/1/x`
is not classified at all — the whole run aborts with an uncaught
`ValueError` from `int(y)` — while the claim says an unparseable end
date is classified as ongoing. -/
theorem C9_counterexample :
    Projects.split_ongoing_past demoTodayC9 [demoProjC9] = .error () ∧
    Projects.split_ongoing_past demoTodayC9 [demoProjC9] ≠
      .ok ([demoProjC9], []) ∧
    Projects.projForced demoProjC9 = false := by
  refine ⟨by decide, by decide, by decide⟩

theorem exceptMap_error_iff {α β : Type} (f : α → β) (x : Except Unit α) :
    (x.map f = .error ()) ↔ x = .error () := by
  cases x with
  | error e => cases e; simp [Except.map]
  | ok a => simp [Except.map]

theorem raises_cons_iff (p : Projects.CompetitiveProject)
    (rest : List Projects.CompetitiveProject)
    (h : Projects.projRaises p = false) :
    (∃ q ∈ rest, Projects.projRaises q = true) ↔
      (∃ q ∈ p :: rest, Projects.projRaises q = true) := by
  constructor
  · rintro ⟨q, hq, hr⟩; exact ⟨q, List.mem_cons_of_mem _ hq, hr⟩
  · rintro ⟨q, hq, hr⟩
    rcases List.mem_cons.mp hq with he | hm
    · rw [he, h] at hr; cases hr
    · exact ⟨q, hm, hr⟩

/-- C9 (amended) — ongoing/past split: the run raises exactly when some
non-forced project has a three-field end date with a non-integer year
field; otherwise a project lands in `past` iff its normalized title is
force-past (which wins even over a missing or unparseable end date) or
its end date parses and is strictly before today, and in `ongoing` iff
it is not forced and its end date is missing/invalid (`None`) or not
before today — both in input order. -/
theorem C9_split_characterization (today : Projects.PyDate)
    (ps : List Projects.CompetitiveProject) :
    (Projects.split_ongoing_past today ps = .error () ↔
      ∃ p ∈ ps, Projects.projRaises p = true) ∧
    ((∀ p ∈ ps, Projects.projRaises p = false) →
      Projects.split_ongoing_past today ps =
        .ok (ps.filter (Projects.projOngoing today),
             ps.filter (Projects.projPast today))) := by
  induction ps with
  | nil =>
    exact ⟨by simp [Projects.split_ongoing_past], fun _ => by
      simp [Projects.split_ongoing_past]⟩
  | cons p rest ih =>
    by_cases hf : Projects._norm_title p.title ∈
        Projects.FORCE_PAST_COMPETITIVE_TITLES
    · -- forced: goes to past, never raises
      have hforced : Projects.projForced p = true := by
        simp [Projects.projForced, hf]
      have hraise : Projects.projRaises p = false := by
        simp [Projects.projRaises, hforced]
      have hong : Projects.projOngoing today p = false := by
        simp [Projects.projOngoing, hforced]
      have hpast : Projects.projPast today p = true := by
        simp [Projects.projPast, hforced]
      have hsplit : Projects.split_ongoing_past today (p :: rest) =
          (Projects.split_ongoing_past today rest).map
            (fun r => (r.1, p :: r.2)) := by
        simp [Projects.split_ongoing_past, hf]
      refine ⟨?_, ?_⟩
      · rw [hsplit, exceptMap_error_iff, ih.1]
        exact raises_cons_iff p rest hraise
      · intro hall
        rw [hsplit, ih.2 (fun q hq => hall q (List.mem_cons_of_mem _ hq))]
        simp [Except.map, List.filter, hong, hpast]
    · have hforced : Projects.projForced p = false := by
        simp [Projects.projForced, hf]
      match hparse : Projects._parse_date p.endDate with
      | .error e =>
        cases e
        have hsplit : Projects.split_ongoing_past today (p :: rest) =
            .error () := by
          simp [Projects.split_ongoing_past, hf, hparse]
        have hraise : Projects.projRaises p = true := by
          simp [Projects.projRaises, hforced, hparse]
        refine ⟨?_, ?_⟩
        · rw [hsplit]
          exact ⟨fun _ => ⟨p, List.mem_cons_self _ _, hraise⟩, fun _ => rfl⟩
        · intro hall
          have := hall p (List.mem_cons_self _ _)
          rw [hraise] at this; cases this
      | .ok none =>
        have hraise : Projects.projRaises p = false := by
          simp [Projects.projRaises, hforced, hparse]
        have hong : Projects.projOngoing today p = true := by
          simp [Projects.projOngoing, hforced, hparse]
        have hpast : Projects.projPast today p = false := by
          simp [Projects.projPast, hforced, hparse]
        have hsplit : Projects.split_ongoing_past today (p :: rest) =
            (Projects.split_ongoing_past today rest).map
              (fun r => (p :: r.1, r.2)) := by
          simp [Projects.split_ongoing_past, hf, hparse]
        refine ⟨?_, ?_⟩
        · rw [hsplit, exceptMap_error_iff, ih.1]
          exact raises_cons_iff p rest hraise
        · intro hall
          rw [hsplit, ih.2 (fun q hq => hall q (List.mem_cons_of_mem _ hq))]
          simp [Except.map, List.filter, hong, hpast]
      | .ok (some e) =>
        have hraise : Projects.projRaises p = false := by
          simp [Projects.projRaises, hforced, hparse]
        by_cases hd : Projects.dateLt e today = true
        · -- strictly before today: past
          have hong : Projects.projOngoing today p = false := by
            simp [Projects.projOngoing, hforced, hparse, hd]
          have hpast : Projects.projPast today p = true := by
            simp [Projects.projPast, hforced, hparse, hd]
          have hsplit : Projects.split_ongoing_past today (p :: rest) =
              (Projects.split_ongoing_past today rest).map
                (fun r => (r.1, p :: r.2)) := by
            simp [Projects.split_ongoing_past, hf, hparse, hd]
          refine ⟨?_, ?_⟩
          · rw [hsplit, exceptMap_error_iff, ih.1]
            exact raises_cons_iff p rest hraise
          · intro hall
            rw [hsplit, ih.2 (fun q hq => hall q (List.mem_cons_of_mem _ hq))]
            simp [Except.map, List.filter, hong, hpast]
        · -- end date not before today: ongoing
          have hd2 : Projects.dateLt e today = false := eq_false_of_ne_true hd
          have hong : Projects.projOngoing today p = true := by
            simp [Projects.projOngoing, hforced, hparse, hd2]
          have hpast : Projects.projPast today p = false := by
            simp [Projects.projPast, hforced, hparse, hd2]
          have hsplit : Projects.split_ongoing_past today (p :: rest) =
              (Projects.split_ongoing_past today rest).map
                (fun r => (p :: r.1, r.2)) := by
            simp [Projects.split_ongoing_past, hf, hparse, hd2]
          refine ⟨?_, ?_⟩
          · rw [hsplit, exceptMap_error_iff, ih.1]
            exact raises_cons_iff p rest hraise
          · intro hall
            rw [hsplit, ih.2 (fun q hq => hall q (List.mem_cons_of_mem _ hq))]
            simp [Except.map, List.filter, hong, hpast]

/-- C9 witness: the characterization at a concrete project list — the
forced project (with an unparseable end date) lands in `past`, the
future-dated one in `ongoing`, the past-dated one in `past`, in input
order. -/
theorem C9_split_characterization_witness :
    Projects.split_ongoing_past demoTodayC9
      [demoProjForced, demoProjOngoing, demoProjPast] =
      .ok ([demoProjOngoing], [demoProjForced, demoProjPast]) := by
  have h := (C9_split_characterization demoTodayC9
    [demoProjForced, demoProjOngoing, demoProjPast]).2 (by decide)
  rw [h]
  decide

end C9Proof

section C1Proof

/-- C1 counterexample: a concrete 2022 card whose normalized title has
both a `MANUAL_RANKS` curator override (`Q2`) and a rank-table hit
(`Q1`) resolves to the rank-table value `Q1`, not the override — the
claim's precedence is inverted in `rebuild_card`. -/
theorem C1_counterexample :
    MANUAL_RANKS.lookup (_norm (extract_title_from_cite
      (repairMojibake demoCardC1).cite)) = some (pstr "Q2") ∧
    demoRankMapC1.lookup (_norm (extract_title_from_cite
      (repairMojibake demoCardC1).cite)) = some (pstr "Q1") ∧
    pyIsDigit (repairMojibake demoCardC1).year = true ∧
    digitsToNat (repairMojibake demoCardC1).year ≤ 2022 ∧
    badgeValue demoRankMapC1 (repairMojibake demoCardC1) = pstr "Q1" ∧
    (pstr "            <span class=\"badge badge-muted\">Q1</span>")
      ∈ rebuild_card_parts emptyEnv demoRankMapC1 demoCardC1 :=
  ⟨by decide, by decide, by decide, by decide, by decide, by decide⟩

/-- C1 (amended) — badge precedence: for a Record with a numeric year
≤ 2022 whose normalized title hits the rank table, the resolved badge is
the RankTable value, also when a curator override exists (the rank map
is applied last and overwrites); the curator title override wins only
when the rank map does not apply (year non-numeric or > 2022) or has no
entry for the title. -/
theorem C1_badge_precedence (rank_map : List (Str × Str)) (card : Card) :
    ((pyIsDigit (repairMojibake card).year &&
        decide (digitsToNat (repairMojibake card).year ≤ 2022)) = true →
      ∀ v, rank_map.lookup (_norm (extract_title_from_cite
          (repairMojibake card).cite)) = some v →
        badgeValuePre rank_map (repairMojibake card) = v) ∧
    (((pyIsDigit (repairMojibake card).year &&
        decide (digitsToNat (repairMojibake card).year ≤ 2022)) = false ∨
      rank_map.lookup (_norm (extract_title_from_cite
          (repairMojibake card).cite)) = none) →
      ∀ v, MANUAL_RANKS.lookup (_norm (extract_title_from_cite
          (repairMojibake card).cite)) = some v → strT v = true →
        badgeValuePre rank_map (repairMojibake card) = v) := by
  constructor
  · intro hyr v hlook
    simp [badgeValuePre, hyr, hlook]
  · rintro (hyr | hnone) v hman hv
    · simp [badgeValuePre, hyr, rankGetTruthy, hman, hv]
    · simp [badgeValuePre, hnone, rankGetTruthy, hman, hv]

/-- C1 witness: the amended precedence applied at the concrete card —
the rank-map branch yields `Q1`, and with an empty rank map the
curator override yields `Q2`. -/
theorem C1_badge_precedence_witness :
    badgeValuePre demoRankMapC1 (repairMojibake demoCardC1) = pstr "Q1" ∧
    badgeValuePre [] (repairMojibake demoCardC1) = pstr "Q2" :=
  ⟨(C1_badge_precedence demoRankMapC1 demoCardC1).1 (by decide) _ (by decide),
   (C1_badge_precedence [] demoCardC1).2 (Or.inr (by decide)) _ (by decide)
     (by decide)⟩

end C1Proof

section LineShapeLemmas

theorem not_isPrefixOf_append (p a b : Str) (k : Nat) (hk1 : k ≤ a.length)
    (hk2 : k ≤ p.length) (hne : p.take k ≠ a.take k) :
    p.isPrefixOf (a ++ b) = false := by
  cases hp : p.isPrefixOf (a ++ b) with
  | false => rfl
  | true =>
    exfalso
    obtain ⟨t, ht⟩ := List.isPrefixOf_iff_prefix.mp hp
    have h1 : (p ++ t).take k = p.take k := List.take_append_of_le_length hk2
    have h2 : (a ++ b).take k = a.take k := List.take_append_of_le_length hk1
    rw [ht] at h1
    exact hne (h1 ▸ h2)

theorem not_isSuffixOf_of_last (t s B : Str) (k : Nat)
    (hsuf : ∃ a, s = a ++ B) (hk1 : k ≤ B.length) (hk2 : k ≤ t.length)
    (hne : t.reverse.take k ≠ B.reverse.take k) :
    t.isSuffixOf s = false := by
  cases hp : t.isSuffixOf s with
  | false => rfl
  | true =>
    exfalso
    obtain ⟨u, hu⟩ := List.isSuffixOf_iff_suffix.mp hp
    obtain ⟨a, ha⟩ := hsuf
    have hrev : t.reverse ++ u.reverse = B.reverse ++ a.reverse := by
      rw [← List.reverse_append, hu, ha, List.reverse_append]
    have h1 : (t.reverse ++ u.reverse).take k = t.reverse.take k :=
      List.take_append_of_le_length (by simpa using hk2)
    have h2 : (B.reverse ++ a.reverse).take k = B.reverse.take k :=
      List.take_append_of_le_length (by simpa using hk1)
    rw [hrev] at h1
    exact hne (h1 ▸ h2)

theorem not_isPrefixOf_concat2 (p P x S : Str) (k : Nat) (hkp : k ≤ P.length)
    (hk2 : k ≤ p.length) (hne : p.take k ≠ P.take k) :
    p.isPrefixOf ((P ++ x) ++ S) = false := by
  rw [List.append_assoc]
  exact not_isPrefixOf_append p P (x ++ S) k hkp hk2 hne

theorem not_isPrefixOf_concat4 (p P x M y S : Str) (k : Nat)
    (hkp : k ≤ P.length) (hk2 : k ≤ p.length) (hne : p.take k ≠ P.take k) :
    p.isPrefixOf ((((P ++ x) ++ M) ++ y) ++ S) = false := by
  have hassoc : (((P ++ x) ++ M) ++ y) ++ S = P ++ (((x ++ M) ++ y) ++ S) := by
    simp [List.append_assoc]
  rw [hassoc]
  exact not_isPrefixOf_append p P (((x ++ M) ++ y) ++ S) k hkp hk2 hne

theorem mem_ite_singleton (c : Bool) (e s : Str) :
    s ∈ (if c = true then [e] else ([] : List Str)) ↔ c = true ∧ s = e := by
  cases c <;> simp

theorem mem_ite_singleton2 (c : Bool) (e1 e2 s : Str) :
    s ∈ (if c = true then [e1] else [e2]) ↔
      (c = true ∧ s = e1) ∨ (c = false ∧ s = e2) := by
  cases c <;> simp

end LineShapeLemmas

section GroupLemmas

theorem mem_pyInsert {α : Type} (le : α → α → Bool) (x a : α) (l : List α) :
    a ∈ pyInsert le x l ↔ a = x ∨ a ∈ l := by
  induction l with
  | nil => simp [pyInsert]
  | cons y t ih =>
    unfold pyInsert
    split
    · simp [List.mem_cons]
    · simp only [List.mem_cons, ih]
      tauto

theorem mem_pySorted {α : Type} (le : α → α → Bool) (a : α) (l : List α) :
    a ∈ pySorted le l ↔ a ∈ l := by
  induction l with
  | nil => simp [pySorted]
  | cons x t ih =>
    show a ∈ pyInsert le x (pySorted le t) ↔ _
    rw [mem_pyInsert, ih]
    simp [List.mem_cons]

theorem lookup_addToGroup {α : Type} (m : List (Str × List α)) (y k : Str)
    (x : α) :
    (addToGroup m y x).lookup k =
      if k = y then some (((m.lookup k).getD []) ++ [x]) else m.lookup k := by
  induction m with
  | nil =>
    by_cases h : k = y
    · simp [addToGroup, List.lookup, h]
    · simp [addToGroup, List.lookup, h, beq_false_of_ne h]
  | cons e rest ih =>
    obtain ⟨k0, l0⟩ := e
    by_cases h0 : k0 = y
    · subst h0
      by_cases hk : k = k0
      · subst hk
        simp [addToGroup, List.lookup]
      · simp [addToGroup, List.lookup, beq_false_of_ne hk, hk]
    · by_cases hk : k = k0
      · subst hk
        simp [addToGroup, h0, List.lookup]
      · have hbeq : (k == k0) = false := by
          simpa using hk
        simp only [addToGroup, if_neg h0, List.lookup, hbeq]
        rw [ih]

theorem lookup_some_mem_keys {α : Type} (m : List (Str × α)) (k : Str) (v : α)
    (h : m.lookup k = some v) : k ∈ m.map Prod.fst := by
  induction m with
  | nil => exact absurd h (by simp [List.lookup])
  | cons e rest ih =>
    obtain ⟨k0, v0⟩ := e
    by_cases hk : k = k0
    · simp only [List.map_cons, List.mem_cons]
      exact Or.inl hk
    · have hbeq : (k == k0) = false := by simpa using hk
      simp only [List.lookup, hbeq] at h
      simp only [List.map_cons, List.mem_cons]
      exact Or.inr (ih h)

theorem mem_groups_foldl {α : Type} (key : α → Str) :
    ∀ (pubs : List α) (m : List (Str × List α)) (x : α),
      (x ∈ pubs ∨ ∃ l, m.lookup (key x) = some l ∧ x ∈ l) →
      ∃ l, ((pubs.foldl (fun gs p => addToGroup gs (key p) p) m).lookup
        (key x)) = some l ∧ x ∈ l := by
  intro pubs
  induction pubs with
  | nil =>
    intro m x h
    rcases h with h | h
    · simp at h
    · simpa using h
  | cons p rest ih =>
    intro m x h
    rw [List.foldl_cons]
    apply ih
    rcases h with hmem | ⟨l, hl, hx⟩
    · rcases List.mem_cons.mp hmem with he | hm
      · subst he
        right
        rw [lookup_addToGroup]
        exact ⟨_, by rw [if_pos rfl], List.mem_append_right _ (List.mem_singleton.mpr rfl)⟩
      · left; exact hm
    · right
      rw [lookup_addToGroup]
      by_cases hk : key x = key p
      · rw [if_pos hk, hl]
        exact ⟨_, rfl, List.mem_append_left _ hx⟩
      · rw [if_neg hk]
        exact ⟨l, hl, hx⟩

theorem mem_foldl_append {β : Type} (f : β → List Str) (s : Str) :
    ∀ (keys : List β) (acc : List Str), s ∈ acc →
      s ∈ keys.foldl (fun out y => out ++ f y) acc := by
  intro keys
  induction keys with
  | nil => intro acc h; simpa using h
  | cons k ks ih => intro acc h; exact ih _ (List.mem_append_left _ h)

theorem mem_foldl_append_of_mem {β : Type} (f : β → List Str) (s : Str) :
    ∀ (keys : List β) (acc : List Str) (y : β), y ∈ keys → s ∈ f y →
      s ∈ keys.foldl (fun out y => out ++ f y) acc := by
  intro keys
  induction keys with
  | nil => simp
  | cons k ks ih =>
    intro acc y hy hs
    rcases List.mem_cons.mp hy with he | hm
    · subst he
      exact mem_foldl_append f s ks _ (List.mem_append_right _ hs)
    · exact ih _ y hm hs

end GroupLemmas

section C2Proof

set_option maxRecDepth 4000 in
/-- C2 counterexample: `build_publications_html` emits the literal
sentinel badge `Q?` on every rendered card — here on a concrete
enriched publication — contradicting the claim that the sentinel never
reaches the final output markup. -/
theorem C2_counterexample :
    sentinelBadgeLine ∈ build_publications_lines [demoEnrichedC2] ∧
    containsSub (build_publications_html [demoEnrichedC2])
      (pstr "<span class=\"badge badge-muted\">Q?</span>") = true :=
  ⟨by decide, by decide⟩

theorem sentinel_mem_pubCardLines (ep : EnrichedPub) :
    sentinelBadgeLine ∈ pubCardLines ep := by
  unfold pubCardLines sentinelBadgeLine
  simp [List.mem_append]

/-- C2 (amended) — sentinel invariant: in the repair renderer the badge
never resolves to the literal sentinel (a `Q?` resolution is normalised
to empty) and a sentinel/empty resolution omits the badge element from
the rebuilt card; the update renderer (`build_publications_html`),
however, emits the literal `Q?` badge element on every card it
renders. -/
theorem C2_badge_sentinel :
    (∀ (rm : List (Str × Str)) (c : Card), badgeValue rm c ≠ pstr "Q?") ∧
    (∀ (env : Env) (rm : List (Str × Str)) (card : Card),
      strT (badgeValue rm (repairMojibake card)) = false →
        hasMutedBadge (rebuild_card_parts env rm card) = false) ∧
    (∀ (eps : List EnrichedPub), ∀ ep ∈ eps,
      sentinelBadgeLine ∈ build_publications_lines eps) := by
  refine ⟨?_, ?_, ?_⟩
  · intro rm c
    simp only [badgeValue]
    split
    · decide
    · assumption
  · intro env rm card hb
    unfold hasMutedBadge
    rw [List.any_eq_false]
    intro s hs
    simp only [Bool.not_eq_true]
    unfold rebuild_card_parts at hs
    simp only [List.mem_append, List.mem_cons, List.not_mem_nil, or_false,
      mem_ite_singleton, mem_ite_singleton2, or_assoc] at hs
    rcases hs with h | h | h | h | ⟨hc, h⟩ | ⟨hc, h⟩ | h | h | h | ⟨hc, h⟩ |
      h | ⟨hc, h⟩ | ⟨hc, h⟩ | ⟨hc, h⟩ | ⟨hc, h⟩ | h | h | h | h
    · subst h; decide
    · subst h; decide
    · subst h; exact not_isPrefixOf_concat2 _ _ _ _ 11 (by decide) (by decide) (by decide)
    · subst h; decide
    · subst h; exact not_isPrefixOf_concat2 _ _ _ _ 31 (by decide) (by decide) (by decide)
    · rw [hb] at hc; cases hc
    · subst h; decide
    · subst h; decide
    · subst h; exact not_isPrefixOf_concat2 _ _ _ _ 9 (by decide) (by decide) (by decide)
    · subst h; exact not_isPrefixOf_concat4 _ _ _ _ _ _ 9 (by decide) (by decide) (by decide)
    · subst h; decide
    · subst h; exact not_isPrefixOf_concat2 _ _ _ _ 11 (by decide) (by decide) (by decide)
    · subst h; exact not_isPrefixOf_concat2 _ _ _ _ 11 (by decide) (by decide) (by decide)
    · subst h; exact not_isPrefixOf_concat2 _ _ _ _ 11 (by decide) (by decide) (by decide)
    · subst h; decide
    · subst h; exact not_isPrefixOf_concat2 _ _ _ _ 11 (by decide) (by decide) (by decide)
    · subst h; decide
    · subst h; decide
    · subst h; decide
  · intro eps ep hep
    have hgrp := mem_groups_foldl (fun p => pyOr p.pub.year (pstr "Unknown"))
      eps [] ep (Or.inl hep)
    obtain ⟨l, hl, hmem⟩ := hgrp
    have hl2 : (buildPubGroups eps).lookup (pyOr ep.pub.year (pstr "Unknown")) =
        some l := by
      simpa [buildPubGroups] using hl
    unfold build_publications_lines
    apply mem_foldl_append_of_mem (buildGroupBlock (buildPubGroups eps))
      sentinelBadgeLine (sortedGroupKeys (buildPubGroups eps)) []
      (pyOr ep.pub.year (pstr "Unknown"))
    · unfold sortedGroupKeys
      rw [mem_pySorted]
      exact lookup_some_mem_keys _ _ _ hl2
    · unfold buildGroupBlock
      rw [hl2]
      refine List.mem_append_left _ (List.mem_append_right _ ?_)
      exact List.mem_flatMap.mpr ⟨ep, hmem, sentinel_mem_pubCardLines ep⟩

/-- C2 witness: the amended invariant at a concrete card — on the
repair side a `Q?` card with no rank data renders no badge element. -/
theorem C2_badge_sentinel_witness :
    badgeValue [] (repairMojibake demoCardC3parsed) ≠ pstr "Q?" ∧
    hasMutedBadge (rebuild_card_parts emptyEnv [] demoCardC3parsed) = false :=
  ⟨C2_badge_sentinel.1 [] (repairMojibake demoCardC3parsed),
   C2_badge_sentinel.2.1 emptyEnv [] demoCardC3parsed (by decide)⟩

end C2Proof

section C6Proof

theorem replaceAllGo_ne_nil (pat repl : Str) (hrepl : repl ≠ []) :
    ∀ (fuel : Nat) (s : Str), s ≠ [] → replaceAllGo pat repl fuel s ≠ [] := by
  intro fuel
  induction fuel with
  | zero => intro s hs; simpa [replaceAllGo] using hs
  | succ n ih =>
    intro s hs
    match s with
    | [] => exact absurd rfl hs
    | c :: rest =>
      unfold replaceAllGo
      split
      · match pat with
        | [] => simp
        | _ :: ps =>
          intro hcontra
          rcases List.append_eq_nil.mp hcontra with ⟨h1, -⟩
          exact hrepl h1
      · simp

theorem replaceAll_ne_nil (s pat repl : Str) (hs : s ≠ []) (hrepl : repl ≠ []) :
    replaceAll s pat repl ≠ [] := by
  unfold replaceAll
  match pat with
  | [] => exact hs
  | p :: ps => exact replaceAllGo_ne_nil (p :: ps) repl hrepl s.length s hs

theorem foldl_replaceAll_ne_nil (tbl : List (Str × Str))
    (hall : ∀ kv ∈ tbl, kv.2 ≠ []) :
    ∀ s : Str, s ≠ [] →
      tbl.foldl (fun out kv => replaceAll out kv.1 kv.2) s ≠ [] := by
  induction tbl with
  | nil => intro s hs; simpa using hs
  | cons kv rest ih =>
    intro s hs
    rw [List.foldl_cons]
    exact ih (fun e he => hall e (List.mem_cons_of_mem _ he)) _
      (replaceAll_ne_nil s kv.1 kv.2 hs (hall kv (List.mem_cons_self _ _)))

theorem fix_mojibake_ne_nil (s : Str) (hs : s ≠ []) : _fix_mojibake s ≠ [] := by
  unfold _fix_mojibake
  rw [if_neg (by simp [strT, List.isEmpty_eq_true, hs])]
  exact foldl_replaceAll_ne_nil _ (by decide) s hs

theorem repair_doi_optT (card : Card) :
    optT (repairMojibake card).doi = optT card.doi := by
  simp only [repairMojibake]
  by_cases h : optT card.doi = true
  · rw [if_pos h]
    match hd : card.doi with
    | none => rw [hd] at h; simp [optT] at h
    | some d =>
      rw [hd] at h
      have hdne : d ≠ [] := by
        simpa [optT, strT, List.isEmpty_eq_true] using h
      have h1 : (_fix_mojibake d).isEmpty = false := by
        simp [List.isEmpty_eq_true, fix_mojibake_ne_nil d hdne]
      have h2 : d.isEmpty = false := by
        simp [List.isEmpty_eq_true, hdne]
      simp [optT, strT, h1, h2]
  · rw [if_neg h]
    have h2 := eq_false_of_ne_true h
    simpa [optT] using h2

theorem resolveLink_falsy (card : Card)
    (h : (∃ u, card.doi_url = some u ∧ card.link_url = some u) ∨
      (optT card.doi = true ∧ optT card.doi_url = true ∧
        ∃ u, card.link_url = some u ∧
          (pstr "https://doi.org/").isPrefixOf u = true)) :
    optT (resolveLinkDoi (repairMojibake card)).1 = false := by
  have hdu : (repairMojibake card).doi_url = card.doi_url := by
    simp [repairMojibake]
  have hlu : (repairMojibake card).link_url = card.link_url := by
    simp [repairMojibake]
  rcases h with ⟨u, hdoiu, hlinku⟩ | ⟨hdoi, hdoiu, u, hlinku, hpre⟩
  · unfold resolveLinkDoi
    rw [hdu, hlu, hdoiu, hlinku]
    by_cases hu : strT u = true
    · split_ifs <;> simp_all [optT]
    · split_ifs <;> simp_all [optT]
  · have hu : strT u = true := by
      have hp := List.isPrefixOf_iff_prefix.mp hpre
      have hlen := hp.length_le
      match u with
      | [] => simp [pstr] at hlen
      | c :: t => simp [strT]
    unfold resolveLinkDoi
    rw [hdu, hlu, hlinku, repair_doi_optT, hdoi]
    by_cases heq : stripWs u = stripWs (card.doi_url.getD [])
    · split_ifs <;> simp_all [optT]
    · split_ifs <;> simp_all [optT]

theorem C6_paper_line_shape (env : Env) (rm : List (Str × Str)) (card : Card) :
    (pstr "          <a href=\"" ++
      html_escape (resolvePaper (repairMojibake card)
        (resolveLinkDoi (repairMojibake card)).1) ++ pstr "\">Paper</a>")
      ∈ rebuild_card_parts env rm card := by
  unfold rebuild_card_parts
  simp [List.mem_append]

/-- C6 — link redundancy: if the generic link equals the identifier
URL, or is itself a DOI-resolver URL while the identifier (and its URL,
per the Record invariant) is present, then the reconciled generic link
is falsy, the rebuilt card contains no separate `Link` entry, and the
`Paper` link falls back through explicit full-text URL → identifier URL
→ profile URL → placeholder (the generic link having been dropped);
the rendered `Paper` href is exactly this fallback value. -/
theorem C6_link_redundancy (env : Env) (rm : List (Str × Str)) (card : Card)
    (h : (∃ u, card.doi_url = some u ∧ card.link_url = some u) ∨
      (optT card.doi = true ∧ optT card.doi_url = true ∧
        ∃ u, card.link_url = some u ∧
          (pstr "https://doi.org/").isPrefixOf u = true)) :
    optT (resolveLinkDoi (repairMojibake card)).1 = false ∧
    hasLinkEntry (rebuild_card_parts env rm card) = false ∧
    (pstr "          <a href=\"" ++
      html_escape (resolvePaper (repairMojibake card)
        (resolveLinkDoi (repairMojibake card)).1) ++ pstr "\">Paper</a>")
      ∈ rebuild_card_parts env rm card ∧
    resolvePaper (repairMojibake card) (resolveLinkDoi (repairMojibake card)).1 =
      (if optT card.paper_url = true then card.paper_url.getD []
       else if optT card.doi_url = true then card.doi_url.getD []
       else if optT card.scholar_url = true then card.scholar_url.getD []
       else pstr "#") := by
  have hlinkF := resolveLink_falsy card h
  refine ⟨hlinkF, ?_, C6_paper_line_shape env rm card, ?_⟩
  · unfold hasLinkEntry
    rw [List.any_eq_false]
    intro s hs
    simp only [Bool.not_eq_true]
    unfold rebuild_card_parts at hs
    simp only [List.mem_append, List.mem_cons, List.not_mem_nil, or_false,
      mem_ite_singleton, mem_ite_singleton2, or_assoc] at hs
    rcases hs with h | h | h | h | ⟨hc, h⟩ | ⟨hc, h⟩ | h | h | h | ⟨hc, h⟩ |
      h | ⟨hc, h⟩ | ⟨hc, h⟩ | ⟨hc, h⟩ | ⟨hc, h⟩ | h | h | h | h
    · subst h; decide
    · subst h; decide
    · subst h
      exact not_isSuffixOf_of_last _ _ _ 6 ⟨_, rfl⟩ (by decide) (by decide) (by decide)
    · subst h; decide
    · subst h
      exact not_isSuffixOf_of_last _ _ _ 7 ⟨_, rfl⟩ (by decide) (by decide) (by decide)
    · subst h
      exact not_isSuffixOf_of_last _ _ _ 7 ⟨_, rfl⟩ (by decide) (by decide) (by decide)
    · subst h; decide
    · subst h; decide
    · subst h
      exact not_isSuffixOf_of_last _ _ _ 4 ⟨_, rfl⟩ (by decide) (by decide) (by decide)
    · subst h
      exact not_isSuffixOf_of_last _ _ _ 8 ⟨_, rfl⟩ (by decide) (by decide) (by decide)
    · subst h; decide
    · rw [hlinkF] at hc; cases hc
    · subst h
      exact not_isSuffixOf_of_last _ _ _ 5 ⟨_, rfl⟩ (by decide) (by decide) (by decide)
    · subst h
      exact not_isSuffixOf_of_last _ _ _ 5 ⟨_, rfl⟩ (by decide) (by decide) (by decide)
    · subst h; decide
    · subst h
      exact not_isSuffixOf_of_last _ _ _ 5 ⟨_, rfl⟩ (by decide) (by decide) (by decide)
    · subst h; decide
    · subst h; decide
    · subst h; decide
  · have hpu : (repairMojibake card).paper_url = card.paper_url := by
      simp [repairMojibake]
    have hdu : (repairMojibake card).doi_url = card.doi_url := by
      simp [repairMojibake]
    have hsu : (repairMojibake card).scholar_url = card.scholar_url := by
      simp [repairMojibake]
    unfold resolvePaper
    rw [hpu, hdu, hsu, hlinkF]
    simp

/-- C6 witness: the spec's concrete scenario — generic link textually
equal to the DOI URL — yields a falsy reconciled link and no `Link`
entry in the rendered card. -/
theorem C6_link_redundancy_witness :
    optT (resolveLinkDoi (repairMojibake demoCardC6)).1 = false ∧
    hasLinkEntry (rebuild_card_parts emptyEnv [] demoCardC6) = false := by
  have h := C6_link_redundancy emptyEnv [] demoCardC6
    (Or.inl ⟨pstr "https://doi.org/10.1000/xyz", by decide, by decide⟩)
  exact ⟨h.1, h.2.1⟩

end C6Proof

section C7Proof

theorem pairwise_pyInsert {α : Type} (le : α → α → Bool)
    (htot : ∀ a b, le a b = true ∨ le b a = true)
    (htrans : ∀ a b c, le a b = true → le b c = true → le a c = true)
    (x : α) (l : List α) (hl : l.Pairwise (fun a b => le a b = true)) :
    (pyInsert le x l).Pairwise (fun a b => le a b = true) := by
  induction l with
  | nil => simp [pyInsert]
  | cons y t ih =>
    rcases List.pairwise_cons.mp hl with ⟨hy, ht⟩
    by_cases hxy : le x y = true
    · rw [show pyInsert le x (y :: t) = x :: y :: t from by simp [pyInsert, hxy]]
      refine List.pairwise_cons.mpr ⟨?_, hl⟩
      intro z hz
      rcases List.mem_cons.mp hz with he | hm
      · subst he; exact hxy
      · exact htrans x y z hxy (hy z hm)
    · rw [show pyInsert le x (y :: t) = y :: pyInsert le x t from by
        simp [pyInsert, hxy]]
      refine List.pairwise_cons.mpr ⟨?_, ih ht⟩
      intro z hz
      rcases (mem_pyInsert le x z t).mp hz with he | hm
      · subst he
        rcases htot z y with h | h
        · exact absurd h hxy
        · exact h
      · exact hy z hm

theorem pairwise_pySorted {α : Type} (le : α → α → Bool)
    (htot : ∀ a b, le a b = true ∨ le b a = true)
    (htrans : ∀ a b c, le a b = true → le b c = true → le a c = true)
    (l : List α) :
    (pySorted le l).Pairwise (fun a b => le a b = true) := by
  induction l with
  | nil => simp [pySorted]
  | cons x t ih => exact pairwise_pyInsert le htot htrans x (pySorted le t) ih

theorem byYear_foldl_lookup (env : Env) (rm : List (Str × Str)) (l : List Card) :
    ∀ (m : List (Str × List Str)) (y : Str),
      (l.foldl (fun m c => if eligibleYear c.year then
          addToGroup m c.year (rebuild_card env rm c) else m) m).lookup y =
      (match m.lookup y,
        (l.filter (fun c => eligibleYear c.year && decide (c.year = y))).map
          (rebuild_card env rm) with
       | some g, app => some (g ++ app)
       | none, [] => none
       | none, a :: app => some (a :: app)) := by
  induction l with
  | nil =>
    intro m y
    simp only [List.foldl_nil, List.filter_nil, List.map_nil]
    match m.lookup y with
    | some g => simp
    | none => simp
  | cons c t ih =>
    intro m y
    rw [List.foldl_cons]
    by_cases he : eligibleYear c.year = true
    · rw [if_pos he]
      by_cases hy : c.year = y
      · subst hy
        have hfil : (c :: t).filter
            (fun x => eligibleYear x.year && decide (x.year = c.year)) =
            c :: t.filter (fun x => eligibleYear x.year && decide (x.year = c.year)) := by
          simp [List.filter_cons, he]
        rw [hfil, List.map_cons, ih, lookup_addToGroup, if_pos rfl]
        match m.lookup c.year with
        | some g => simp
        | none => simp
      · have hfil : (c :: t).filter
            (fun x => eligibleYear x.year && decide (x.year = y)) =
            t.filter (fun x => eligibleYear x.year && decide (x.year = y)) := by
          simp [List.filter_cons, hy]
        rw [hfil, ih, lookup_addToGroup, if_neg (fun h => hy h.symm)]
    · rw [if_neg he]
      have hfil : (c :: t).filter
          (fun x => eligibleYear x.year && decide (x.year = y)) =
          t.filter (fun x => eligibleYear x.year && decide (x.year = y)) := by
        simp [List.filter_cons, eq_false_of_ne_true he]
      rw [hfil, ih]

theorem byYear_lookup (env : Env) (rm : List (Str × Str)) (l : List Card)
    (y : Str) :
    (byYear env rm l).lookup y =
      (match (l.filter (fun c => eligibleYear c.year && decide (c.year = y))).map
          (rebuild_card env rm) with
       | [] => none
       | a :: app => some (a :: app)) := by
  unfold byYear
  rw [byYear_foldl_lookup]
  have h0 : List.lookup y ([] : List (Str × List Str)) = none := rfl
  rw [h0]
  rcases hM : (l.filter (fun c => eligibleYear c.year &&
      decide (c.year = y))).map (rebuild_card env rm) with - | ⟨a, app⟩ <;>
    rw [hM]

/-- C7 — renderer grouping: over the kept cards, (a) every group holds
exactly the rebuilt cards of the kept cards with that (eligible) year,
in input order; (b) every kept card with a truthy, all-digit,
non-excluded year lands in its year's group; (c) a year that is empty,
non-numeric or excluded has no group at all — such records are silently
dropped from grouping; (d) the rendered year headings are in descending
numeric order. -/
theorem C7_render_grouping (env : Env) (rm : List (Str × Str))
    (cards : List Card) :
    (∀ y gl, (byYear env rm (keptCards cards)).lookup y = some gl →
      eligibleYear y = true ∧
      gl = ((keptCards cards).filter (fun c => decide (c.year = y))).map
        (rebuild_card env rm)) ∧
    (∀ c ∈ keptCards cards, eligibleYear c.year = true →
      ∃ gl, (byYear env rm (keptCards cards)).lookup c.year = some gl ∧
        rebuild_card env rm c ∈ gl) ∧
    (∀ y, eligibleYear y = false →
      (byYear env rm (keptCards cards)).lookup y = none) ∧
    (yearsSorted (byYear env rm (keptCards cards))).Pairwise
      (fun a b => digitsToNat b ≤ digitsToNat a) := by
  refine ⟨?_, ?_, ?_, ?_⟩
  · intro y gl hgl
    rw [byYear_lookup] at hgl
    match hfil : ((keptCards cards).filter
        (fun c => eligibleYear c.year && decide (c.year = y))).map
        (rebuild_card env rm) with
    | [] => rw [hfil] at hgl; cases hgl
    | a :: app =>
      rw [hfil] at hgl
      have hglval : gl = a :: app := by
        simpa using hgl.symm
      have hYelig : eligibleYear y = true := by
        match hf2 : (keptCards cards).filter
            (fun c => eligibleYear c.year && decide (c.year = y)) with
        | [] => rw [hf2] at hfil; simp at hfil
        | c0 :: _ =>
          have hc0 : c0 ∈ (keptCards cards).filter
              (fun c => eligibleYear c.year && decide (c.year = y)) := by
            rw [hf2]; exact List.mem_cons_self _ _
          have h2 : eligibleYear c0.year = true ∧ c0.year = y := by
            simpa using (List.mem_filter.mp hc0).2
          exact h2.2 ▸ h2.1
      refine ⟨hYelig, ?_⟩
      rw [hglval, ← hfil]
      congr 1
      apply List.filter_congr
      intro c _
      by_cases hcy : c.year = y
      · simp [hcy, hYelig]
      · simp [hcy]
  · intro c hc he
    rw [byYear_lookup]
    have hmem : c ∈ (keptCards cards).filter
        (fun x => eligibleYear x.year && decide (x.year = c.year)) :=
      List.mem_filter.mpr ⟨hc, by simp [he]⟩
    have hmemmap : rebuild_card env rm c ∈
        ((keptCards cards).filter
          (fun x => eligibleYear x.year && decide (x.year = c.year))).map
          (rebuild_card env rm) := List.mem_map_of_mem _ hmem
    match hfil : ((keptCards cards).filter
        (fun x => eligibleYear x.year && decide (x.year = c.year))).map
        (rebuild_card env rm) with
    | [] => rw [hfil] at hmemmap; cases hmemmap
    | a :: app =>
      rw [hfil] at hmemmap
      rw [hfil]
      exact ⟨a :: app, rfl, hmemmap⟩
  · intro y hy
    rw [byYear_lookup]
    have hfil : (keptCards cards).filter
        (fun c => eligibleYear c.year && decide (c.year = y)) = [] := by
      apply List.filter_eq_nil_iff.mpr
      intro c _
      by_cases hcy : c.year = y
      · simp [hcy, hy]
      · simp [hcy]
    rw [hfil]
    simp
  · unfold yearsSorted
    have hp := pairwise_pySorted
      (fun a b : Str => decide (digitsToNat b ≤ digitsToNat a))
      (fun a b => by
        rcases Nat.le_total (digitsToNat b) (digitsToNat a) with h | h
        · exact Or.inl (decide_eq_true h)
        · exact Or.inr (decide_eq_true h))
      (fun a b c h1 h2 => by
        have h1x : digitsToNat b ≤ digitsToNat a := of_decide_eq_true h1
        have h2x : digitsToNat c ≤ digitsToNat b := of_decide_eq_true h2
        exact decide_eq_true (le_trans h2x h1x))
      ((byYear env rm (keptCards cards)).map Prod.fst)
    exact hp.imp (fun h => of_decide_eq_true h)

/-- C7 witness: the grouping at a concrete card list — the 2024 group
holds both 2024 cards in input order, the non-numeric year `20xy` has
no group, and the headings are numerically descending. -/
theorem C7_render_grouping_witness :
    (∃ gl, (byYear emptyEnv [] (keptCards demoCardsC7)).lookup (pstr "2024") =
      some gl ∧ rebuild_card emptyEnv [] (demoCardsC7.get ⟨1, by decide⟩) ∈ gl) ∧
    (byYear emptyEnv [] (keptCards demoCardsC7)).lookup (pstr "20xy") = none ∧
    (yearsSorted (byYear emptyEnv [] (keptCards demoCardsC7))).Pairwise
      (fun a b => digitsToNat b ≤ digitsToNat a) := by
  have h := C7_render_grouping emptyEnv [] demoCardsC7
  refine ⟨?_, h.2.2.1 (pstr "20xy") (by decide), h.2.2.2⟩
  exact h.2.1 (demoCardsC7.get ⟨1, by decide⟩) (by decide) (by decide)

end C7Proof

section C8Proof

theorem findCloserSec_decomp :
    ∀ (r mid rest : Str), findCloserSec r = some (mid, rest) → r = mid ++ rest := by
  intro r
  induction r with
  | nil => intro mid rest h; simp [findCloserSec] at h
  | cons c t ih =>
    intro mid rest h
    unfold findCloserSec at h
    split at h
    · obtain ⟨h1, h2⟩ := by simpa using h
      rw [h1, ← h2]
      rfl
    · cases hf : findCloserSec t with
      | none => rw [hf] at h; simp at h
      | some p =>
        obtain ⟨m2, r2⟩ := p
        rw [hf] at h
        obtain ⟨h1, h2⟩ := by simpa using h
        rw [← h1, ← h2, ih m2 r2 hf]
        rfl

theorem matchListSectionAt_decomp (s g1 mid rest : Str)
    (h : matchListSectionAt s = some (g1, mid, rest)) :
    s = g1 ++ mid ++ rest := by
  simp only [matchListSectionAt] at h
  split at h
  case isFalse => simp at h
  case isTrue h1 =>
    split at h
    case isFalse => simp at h
    case isTrue h2 =>
      obtain ⟨t1, ht1⟩ := List.isPrefixOf_iff_prefix.mp h1
      have hd1 : s.drop 9 = t1 := by
        rw [← ht1, show (9 : Nat) = (pstr "<section>").length from rfl]
        exact List.drop_left _ _
      rw [hd1] at h h2
      obtain ⟨t2, ht2⟩ := List.isPrefixOf_iff_prefix.mp h2
      have hd2 : (t1.dropWhile isPySpace).drop 13 = t2 := by
        rw [← ht2, show (13 : Nat) = (pstr "<h2>List</h2>").length from rfl]
        exact List.drop_left _ _
      rw [hd2] at h
      split at h
      case h_2 => simp at h
      case h_1 m2 r2 hf =>
        obtain ⟨hg, hm, hr⟩ := by simpa using h
        rw [← hg, ← hm, ← hr]
        have hdec : t2.dropWhile isPySpace = m2 ++ r2 :=
          findCloserSec_decomp _ m2 r2 hf
        have h5 : t2 = t2.takeWhile isPySpace ++ (m2 ++ r2) := by
          have hw := List.takeWhile_append_dropWhile isPySpace t2
          rw [hdec] at hw
          exact hw.symm
        have h3 : t1 = t1.takeWhile isPySpace ++ (pstr "<h2>List</h2>" ++ t2) := by
          have hw := List.takeWhile_append_dropWhile isPySpace t1
          rw [← ht2] at hw
          exact hw.symm
        conv_lhs => rw [← ht1, h3, h5]
        simp [List.append_assoc]

theorem findListSec_decomp :
    ∀ (doc pre mid post : Str), findListSec doc = some (pre, mid, post) →
      doc = pre ++ mid ++ post := by
  intro doc
  induction doc with
  | nil => intro pre mid post h; simp [findListSec] at h
  | cons c t ih =>
    intro pre mid post h
    unfold findListSec at h
    cases hm : matchListSectionAt (c :: t) with
    | some r =>
      obtain ⟨g1, m2, r2⟩ := r
      rw [hm] at h
      obtain ⟨h1, h2, h3⟩ := by simpa using h
      rw [← h1, ← h2, ← h3]
      exact matchListSectionAt_decomp (c :: t) g1 m2 r2 hm
    | none =>
      rw [hm] at h
      cases hf : findListSec t with
      | none => rw [hf] at h; simp at h
      | some p =>
        obtain ⟨p2, m2, r2⟩ := p
        rw [hf] at h
        obtain ⟨h1, h2, h3⟩ := by simpa using h
        rw [← h1, ← h2, ← h3, ih p2 m2 r2 hf]
        rfl

/-- C8 — fatal anchor failure: when the labeled List section is absent
(`findListSec` finds no match of the anchor pattern), `main` aborts via
`SystemExit` with a nonzero status before writing anything (modelled as
`Except.error` with the exact message); when it is present, the output
is the document with exactly the section's inner content replaced by
the freshly rendered list — the prefix up to the match and the suffix
from the end of the inner content pass through byte-identically, and
they really are a decomposition of the input document. -/
theorem C8_anchor (env : Env) (rm : List (Str × Str)) (doc : Str) :
    (findListSec doc = none →
      mainTransform env rm doc =
        .error (pstr "Could not find publications List section")) ∧
    (∀ pre mid post, findListSec doc = some (pre, mid, post) →
      doc = pre ++ mid ++ post ∧
      mainTransform env rm doc =
        .ok (pre ++ _render_list env rm (parse_cards doc) ++ post)) := by
  constructor
  · intro h
    unfold mainTransform
    rw [h]
  · intro pre mid post h
    refine ⟨findListSec_decomp doc pre mid post h, ?_⟩
    unfold mainTransform
    rw [h]

/-- C8 witness: on a document without the List section the transform
errors out; on `demoDocC8` the anchor is found, the returned triple
decomposes the document, and the output splices the rendered list
between the unchanged prefix and suffix. -/
theorem C8_anchor_witness :
    mainTransform emptyEnv [] demoDocC8bad =
      .error (pstr "Could not find publications List section") ∧
    demoDocC8 =
      pstr "<html><section>\n<h2>List</h2>\n" ++ pstr "OLD" ++
        pstr "\n</section></html>" ∧
    mainTransform emptyEnv [] demoDocC8 =
      .ok (pstr "<html><section>\n<h2>List</h2>\n" ++
        _render_list emptyEnv [] (parse_cards demoDocC8) ++
        pstr "\n</section></html>") := by
  refine ⟨(C8_anchor emptyEnv [] demoDocC8bad).1 (by decide), ?_⟩
  exact (C8_anchor emptyEnv [] demoDocC8).2
    (pstr "<html><section>\n<h2>List</h2>\n") (pstr "OLD")
    (pstr "\n</section></html>") (by decide)

end C8Proof

section C3Proof

set_option maxRecDepth 10000 in
/-- C3 — the pipeline is not idempotent: on `demoDocC3` (unchanged
empty external sources throughout) the first run succeeds with output
`demoDocC3Run1` and the second run, on that output, succeeds with
`demoDocC3Run2`, yet the two outputs differ byte-wise: the second run
renders the placeholder BibTeX anchor with a ` download` attribute
that the first run's output does not contain. -/
theorem C3_not_idempotent :
    mainTransform emptyEnv [] demoDocC3 = .ok demoDocC3Run1 ∧
    mainTransform emptyEnv [] demoDocC3Run1 = .ok demoDocC3Run2 ∧
    demoDocC3Run2 ≠ demoDocC3Run1 ∧
    containsSub demoDocC3Run1 (pstr " download>BibTeX</a>") = false ∧
    containsSub demoDocC3Run2 (pstr " download>BibTeX</a>") = true := by
  refine ⟨rfl, rfl, by decide, by decide, by decide⟩

end C3Proof

end Site
